import Mathlib

/-!
Verification of the LWS (local-workgroup-size) matrix-multiply and
conv2d-as-matmul WebGPU program generators
(`matmul_lws_webgpu.ts` and the `Conv2DMMLWSProgram` source file):
tile-configuration planning, dispatch geometry, shader keys, and the
generated WGSL kernel text.

Strings are modelled as `List Char`; JavaScript template interpolation of a
number is modelled by decimal rendering (`natChars`).  Throwing constructors
and text generators that can reject a request are modelled with `Except`.
-/

set_option maxRecDepth 100000

/-- The character list of a string literal. -/
def lc (s : String) : List Char := s.data

/-- Decimal digit character for a digit value `d < 10`. -/
def digitChar (d : Nat) : Char := Char.ofNat (48 + d)

/-- Fuel-driven decimal rendering, most significant digit first
(empty on `n = 0`). -/
def natCharsAux : Nat → Nat → List Char
  | 0, _ => []
  | fuel + 1, n =>
    if n = 0 then [] else natCharsAux fuel (n / 10) ++ [digitChar (n % 10)]

/-- Decimal rendering of a natural number, exactly as JavaScript template
interpolation `${n}` renders a (nonnegative integer) number. -/
def natChars (n : Nat) : List Char := if n = 0 then lc "0" else natCharsAux n n

/-- JavaScript rendering of a boolean by template interpolation. -/
def boolChars (b : Bool) : List Char := if b then lc "true" else lc "false"

/-- Number of positions of `s` at which the pattern `p` occurs (occurrences
may overlap; each start position is counted once). -/
def occ (p : List Char) : List Char → Nat
  | [] => 0
  | c :: s => (if p <+: (c :: s) then 1 else 0) + occ p s

/-- Digit-value of a decimal digit character. -/
def unDigit (c : Char) : Nat := c.toNat - 48

/-- Left inverse of `natChars`: read a most-significant-first decimal string
back into a number. -/
def unNatChars (s : List Char) : Nat := Nat.ofDigits 10 (s.reverse.map unDigit)

/-- Modelled from the spec: `typeSnippet` (`webgpu_program.ts`, not under
`src/`) maps a vector width to the WGSL value type appearing in generated
text. -/
def typeSnippet (component : Nat) : List Char :=
  if component = 1 then lc "f32"
  else if component = 2 then lc "vec2<f32>"
  else if component = 3 then lc "vec3<f32>"
  else lc "vec4<f32>"

/-- Modelled from the spec: `getMainHeaderString` (`webgpu_program.ts`, not
under `src/`) emits the fixed compute-entry-point header of every kernel. -/
def mainHeader : List Char :=
  lc "fn main(@builtin(local_invocation_index) localIndex: u32)"

/-- A fragment of generated text: a literal run of template characters, or
one interpolated expression of the template — a number, a WGSL value type
(`typeSnippet`), or one of the two batch-index expressions selected by the
`isConv` flag. -/
inductive Frag where
  | lit : List Char → Frag
  | num : Nat → Frag
  | ts : Nat → Frag
  | batchA : Bool → Frag
  | batchB : Bool → Frag

/-- The text of one fragment. -/
def Frag.render : Frag → List Char
  | .lit s => s
  | .num n => natChars n
  | .ts comp => typeSnippet comp
  | .batchA isConv =>
    if isConv then lc "i32(batch)" else lc "i32(batch) % uniforms.aShape[0]"
  | .batchB isConv =>
    if isConv then lc "0i" else lc "i32(batch) % uniforms.bShape[0]"

/-- The generated text of a fragment list is the concatenation of the
fragments' texts. -/
def renderFrags (fs : List Frag) : List Char := (fs.map Frag.render).flatten

/-- Fragment nonemptiness (every interpolated fragment renders nonempty). -/
def Frag.neB : Frag → Bool
  | .lit s => !s.isEmpty
  | _ => true

/-- The rendered fragment begins with a character that cannot occur at
positions ≥ 1 of `p`, so no occurrence of `p` crosses into the fragment from
the left: a number begins with a digit (handled by the digit-free side
condition on `p`), a value type begins with `f` or `v`, the batch
expressions begin with `i` or `0`. -/
def Frag.headNotInB (p : List Char) : Frag → Bool
  | .lit [] => false
  | .lit (c :: _) => !(p.drop 1).contains c
  | .num _ => true
  | .ts _ => !(p.drop 1).contains 'f' && !(p.drop 1).contains 'v'
  | .batchA _ => !(p.drop 1).contains 'i'
  | .batchB _ => !(p.drop 1).contains '0' && !(p.drop 1).contains 'i'

/-- The rendered fragment ends with a character that cannot occur at
positions < |p| - 1 of `p`, so no occurrence of `p` crosses out of the
fragment to the right: a value type ends with `2` or `>`, the batch
expressions end with `)`, `]`, `i` or `]`. -/
def Frag.lastNotInB (p : List Char) : Frag → Bool
  | .lit s =>
    match s.getLast? with
    | none => false
    | some c => !p.dropLast.contains c
  | .num _ => true
  | .ts _ => !p.dropLast.contains '2' && !p.dropLast.contains '>'
  | .batchA _ => !p.dropLast.contains ')' && !p.dropLast.contains ']'
  | .batchB _ => !p.dropLast.contains 'i' && !p.dropLast.contains ']'

/-- Adjacent fragments admit occurrence splitting for pattern `p`: the left
one ends, or the right one begins, with a suitable boundary character. -/
def sepOk (p : List Char) (f g : Frag) : Bool :=
  f.lastNotInB p || g.headNotInB p

/-- All adjacent pairs of the fragment list satisfy `sepOk`. -/
def chainOk (p : List Char) : List Frag → Bool
  | [] => true
  | [_] => true
  | f :: g :: fs => sepOk p f g && chainOk p (g :: fs)

/-- Occurrences of `p` fully inside one fragment; for the pattern classes
used below (`PatOk`) an interpolated fragment contains no occurrence. -/
def occFrag (p : List Char) : Frag → Nat
  | .lit s => occ p s
  | _ => 0

/-- Side conditions on a pattern under which fragment-based occurrence
counting is exact: nonempty, digit-free, and never occurring inside an
interpolated value type or batch expression. -/
structure PatOk (p : List Char) : Prop where
  ne : p ≠ []
  dig : ∀ c ∈ p, c.isDigit = false
  ts_occ : ∀ comp, occ p (typeSnippet comp) = 0
  ba_occ : ∀ b, occ p ((Frag.batchA b).render) = 0
  bb_occ : ∀ b, occ p ((Frag.batchB b).render) = 0

/-- `backend_util.Activation` (a TypeScript string union); `Option` models
the nullable activation parameter of the constructors. -/
inductive Activation where
  | linear | relu | relu6 | prelu | leakyrelu | sigmoid | elu
deriving DecidableEq, Fintype

/-- JavaScript template interpolation of the nullable activation: the string
itself, or `null` for the absent activation. -/
def activationChars : Option Activation → List Char
  | none => lc "null"
  | some .linear => lc "linear"
  | some .relu => lc "relu"
  | some .relu6 => lc "relu6"
  | some .prelu => lc "prelu"
  | some .leakyrelu => lc "leakyrelu"
  | some .sigmoid => lc "sigmoid"
  | some .elu => lc "elu"

/-- `mm_Asub` shared-memory declaration of `makeMatMulLWSSource`:
`tileM` rows of `tileK / aComponents` vectors of width `aComponents`. -/
def lwsDeclA (ac tM tK : Nat) : List Frag :=
  [.lit (lc "\n  var<workgroup> mm_Asub: array<array<"),
   .ts ac,
   .lit (lc ", "),
   .num (tK / ac),
   .lit (lc ">, "),
   .num tM,
   .lit (lc ">;")]

/-- `mm_Bsub` shared-memory declaration of `makeMatMulLWSSource`:
`tileK` rows of `tileN / components` vectors of width `components`. -/
def lwsDeclB (c tN tK : Nat) : List Frag :=
  [.lit (lc "\n  var<workgroup> mm_Bsub: array<array<"),
   .ts c,
   .lit (lc ", "),
   .num (tN / c),
   .lit (lc ">, "),
   .num tK,
   .lit (lc ">;")]

/-- Kernel text of `makeMatMulLWSSource` from the entry-point header to the
tile-origin computation, up to (excluding) the batch-index derivation. -/
def lwsHeadPre (tM tN : Nat) : List Frag :=
  [.lit (lc "\n  " ++ mainHeader ++
     lc " \x7b\n    let virtualGlobalId = workgroupId.z * numWorkgroups.x * numWorkgroups.y +\n        workgroupId.y * numWorkgroups.x + workgroupId.x;\n    let stride0 = (u32(uniforms.dimBOuter) - 1u) / "),
   .num tN,
   .lit (lc "u + 1u;\n    let tileColStart = (virtualGlobalId % stride0) * "),
   .num tN,
   .lit (lc "u;\n    var index1 = virtualGlobalId / stride0;\n    let stride1 = (u32(uniforms.dimAOuter) - 1u) / "),
   .num tM,
   .lit (lc "u + 1u;\n    let tileRowStart = (index1 % stride1) * "),
   .num tM]

/-- The batch-index derivation of `makeMatMulLWSSource`: the per-variant
`batchA` and `batchB` expressions. -/
def lwsBatch (isConv : Bool) : List Frag :=
  [.lit (lc "u;\n    let batch = index1 / stride1;\n    let batchA = "),
   .batchA isConv,
   .lit (lc ";\n    let batchB = "),
   .batchB isConv,
   .lit (lc ";\n\n    var values: array<")]

/-- Kernel text of `makeMatMulLWSSource` from the accumulator declaration
through the cooperative loads of both tiles, up to (excluding) the first
`workgroupBarrier()`. -/
def lwsHeadPost (ws on_ c ac tM tN tK : Nat) : List Frag :=
  [.ts c,
   .lit (lc ", "),
   .num on_,
   .lit (lc ">;\n    let numTiles = (u32(uniforms.dimInner) - 1u) / "),
   .num tK,
   .lit (lc " + 1u;\n    var kStart = 0u;\n    // Loop over shared dimension.\n    for (var t = 0u; t < numTiles; t = t + 1u) \x7b\n      // Load one tile of A into local memory.\n      for (var tIndex = localIndex; tIndex < "),
   .num (tM * tK / ac),
   .lit (lc "; tIndex += "),
   .num ws,
   .lit (lc ") \x7b\n          let inputRow = tIndex / "),
   .num (tK / ac),
   .lit (lc ";\n          let inputCol = tIndex % "),
   .num (tK / ac),
   .lit (lc ";\n\n          mm_Asub[inputRow][inputCol] = mm_readA(batchA, i32(tileRowStart + inputRow), i32(kStart + inputCol * "),
   .num ac,
   .lit (lc "));\n      \x7d\n\n      // Load one tile of B into local memory.\n      for (var tIndex = localIndex; tIndex < "),
   .num (tK * tN / c),
   .lit (lc "; tIndex += "),
   .num ws,
   .lit (lc ") \x7b\n          let inputRow = tIndex / "),
   .num (tN / c),
   .lit (lc ";\n          let inputCol = tIndex % "),
   .num (tN / c),
   .lit (lc ";\n          mm_Bsub[inputRow][inputCol] = mm_readB(batchB, i32(kStart + inputRow), i32(tileColStart + inputCol * "),
   .num c,
   .lit (lc "));\n      \x7d\n      kStart = kStart + "),
   .num tK,
   .lit (lc ";\n      ")]

/-- Kernel text of `makeMatMulLWSSource` from the entry-point header through
the cooperative loads of both tiles, up to (excluding) the first
`workgroupBarrier()`. -/
def lwsHead (ws on_ c ac tM tN tK : Nat) (isConv : Bool) : List Frag :=
  lwsHeadPre tM tN ++ lwsBatch isConv ++ lwsHeadPost ws on_ c ac tM tN tK

/-- The barrier statement emitted (twice) inside the reduction loop. -/
def lwsBarrierFrag : Frag := .lit (lc "workgroupBarrier();")

/-- One unrolled `bData` load of `calcResult()`. -/
def bDataFrags (i : Nat) : List Frag :=
  [.lit (lc "\n            let bData"),
   .num i,
   .lit (lc " = mm_Bsub[k + "),
   .num i,
   .lit (lc "][localCol];")]

/-- One unrolled fma of `calcResult()` (the `aComponents === 1` form reads
the scalar accumulator without indexing). -/
def jFrags (c ac i j : Nat) : List Frag :=
  if ac = 1 then
    [.lit (lc "\n          values["),
     .num i,
     .lit (lc "] = fma("),
     .ts c,
     .lit (lc "(aData), bData"),
     .num j,
     .lit (lc ", values["),
     .num i,
     .lit (lc "]);\n")]
  else
    [.lit (lc "\n          values["),
     .num i,
     .lit (lc "] = fma("),
     .ts c,
     .lit (lc "(aData["),
     .num j,
     .lit (lc "]), bData"),
     .num j,
     .lit (lc ", values["),
     .num i,
     .lit (lc "]);\n")]

/-- One unrolled output row of `calcResult()`: the `aData` load and its
fmas. -/
def iFrags (c ac i : Nat) : List Frag :=
  [.lit (lc "aData = mm_Asub[localRow + "),
   .num i,
   .lit (lc "][k / "),
   .num ac,
   .lit (lc "];")]
  ++ (List.range ac).flatMap (jFrags c ac i)

/-- `calcResult()` of `makeMatMulLWSSource`: the loop-unrolled per-thread
accumulation text. -/
def calcFrags (on_ c ac : Nat) : List Frag :=
  [.lit (lc "var aData: "), .ts ac, .lit (lc ";")]
  ++ (List.range ac).flatMap bDataFrags
  ++ (List.range on_).flatMap (iFrags c ac)

/-- Kernel text between the two `workgroupBarrier()` statements, before the
accumulation: the per-thread loop headers. -/
def lwsComputePre (ws on_ c ac tM tN tK : Nat) : List Frag :=
  [.lit (lc "\n\n      // Compute values for a single thread.\n      for (var k = 0; k < "),
   .num tK,
   .lit (lc "; k = k + "),
   .num ac,
   .lit (lc ") \x7b\n        for (var tIndex = localIndex; tIndex < "),
   .num ((tM / on_) * (tN / c)),
   .lit (lc "; tIndex += "),
   .num ws,
   .lit (lc ") \x7b\n          let localRow = tIndex / "),
   .num (tN / c),
   .lit (lc " * "),
   .num on_,
   .lit (lc ";\n          let localCol = tIndex % "),
   .num (tN / c),
   .lit (lc ";\n        ")]

/-- Kernel text between the two `workgroupBarrier()` statements: the
per-thread accumulation over the just-loaded tile slice. -/
def lwsCompute (ws on_ c ac tM tN tK : Nat) : List Frag :=
  lwsComputePre ws on_ c ac tM tN tK ++ calcFrags on_ c ac
  ++ [.lit (lc "\n      \x7d\n      \x7d\n      ")]

/-- Kernel text after the second `workgroupBarrier()`: the write-back
epilogue. -/
def lwsTail (ws on_ c tM tN : Nat) : List Frag :=
  [.lit (lc "\n    \x7d\n\n    for (var tIndex = localIndex; tIndex < "),
   .num ((tM / on_) * (tN / c)),
   .lit (lc "; tIndex += "),
   .num ws,
   .lit (lc ") \x7b\n      let localRow = tIndex / "),
   .num (tN / c),
   .lit (lc " * "),
   .num on_,
   .lit (lc ";\n      let localCol = tIndex % "),
   .num (tN / c),
   .lit (lc ";\n      let globalCol = tileColStart + localCol * "),
   .num c,
   .lit (lc ";\n      let globalRow = tileRowStart + localRow;\n      for (var i = 0u; i < "),
   .num on_,
   .lit (lc "u; i++) \x7b\n        mm_write(i32(batch), i32(globalRow + i), i32(globalCol), values[i]);\n      \x7d\n    \x7d\n  \x7d\n  ")]

/-- The full fragment list of `makeMatMulLWSSource`. -/
def lwsFrags (ws on_ c ac tM tN tK : Nat) (isConv : Bool) : List Frag :=
  lwsDeclA ac tM tK ++ lwsDeclB c tN tK ++ lwsHead ws on_ c ac tM tN tK isConv
  ++ [lwsBarrierFrag] ++ lwsCompute ws on_ c ac tM tN tK
  ++ [lwsBarrierFrag] ++ lwsTail ws on_ c tM tN

/-- `makeMatMulLWSSource` of `matmul_lws_webgpu.ts`: the synthesized WGSL
kernel text (as a character list). -/
def makeMatMulLWSSource (workgroupSize outputNumber components aComponents
    tileM tileN tileK : Nat) (isConv : Bool) : List Char :=
  renderFrags
    (lwsFrags workgroupSize outputNumber components aComponents tileM tileN
      tileK isConv)

/-- Modelled from the spec: the activation snippet library
(`activation_util.ts`, not under `src/`).  Per §7 (unsupported-combination
signaling), a structurally inconsistent epilogue combination — PReLU
activation weights supplied while no activation is selected — is rejected at
generation time; otherwise the snippet is a pure text-producing function of
its parameters. -/
def activationFnSnippet (activation : Option Activation)
    (hasPreluActivationWeights packed : Bool) :
    Except (List Char) (List Char) :=
  if hasPreluActivationWeights && activation.isNone then
    .error (lc "Unsupported epilogue combination: PReLU activation weights without an activation")
  else
    .ok (lc "// activation(" ++ activationChars activation ++ lc ", " ++
      boolChars hasPreluActivationWeights ++ lc ", " ++ boolChars packed ++
      lc ")")

/-- Modelled from the spec: `matMulReadWriteFnSource`
(`matmul_packed_webgpu.ts`, not under `src/`).  §4.4: the read/write snippet
is a pure text-producing function of bias presence, activation, transpose
flags, fit flags and the two vector widths (the write step applies bias
addition and the fused activation when configured; boundary checks appear
exactly when the corresponding fit flag is false). -/
def matMulReadWriteFnSource (addBias : Bool) (activation : Option Activation)
    (transposeA transposeB fitAOuter fitBOuter fitInner : Bool)
    (components aComponents : Nat) : List Char :=
  lc "// readWrite(" ++ boolChars addBias ++ lc ", " ++
  activationChars activation ++ lc ", " ++ boolChars transposeA ++ lc ", " ++
  boolChars transposeB ++ lc ", " ++ boolChars fitAOuter ++ lc ", " ++
  boolChars fitBOuter ++ lc ", " ++ boolChars fitInner ++ lc ", " ++
  natChars components ++ lc ", " ++ natChars aComponents ++ lc ")"

/-- Modelled from the spec: `conv2dCommonSnippet` (`conv2d_mm_webgpu.ts`, not
under `src/`): the im2col-style read/write snippet of the convolution
variant, a pure text-producing function of its parameters, rejecting the
structurally inconsistent PReLU-weights-without-activation combination at
generation time (§7). -/
def conv2dCommonSnippet (isChannelsLast fitAOuter fitBOuter fitInner
    addBias : Bool) (activation : Option Activation)
    (hasPreluActivationWeights : Bool)
    (innerElementSizeX innerElementSize innerElementSizeW : Nat) :
    Except (List Char) (List Char) :=
  if hasPreluActivationWeights && activation.isNone then
    .error (lc "Unsupported epilogue combination: PReLU activation weights without an activation")
  else
    .ok (lc "// conv2dCommon(" ++ boolChars isChannelsLast ++ lc ", " ++
      boolChars fitAOuter ++ lc ", " ++ boolChars fitBOuter ++ lc ", " ++
      boolChars fitInner ++ lc ", " ++ boolChars addBias ++ lc ", " ++
      activationChars activation ++ lc ", " ++
      boolChars hasPreluActivationWeights ++ lc ", " ++
      natChars innerElementSizeX ++ lc ", " ++ natChars innerElementSize ++
      lc ", " ++ natChars innerElementSizeW ++ lc ")")

/-- JavaScript `a % b === 0` on nonnegative integers; in JavaScript `x % 0`
is `NaN`, which is not equal to `0`. -/
def jsModEqZero (a b : Nat) : Bool := b != 0 && a % b == 0

/-- JavaScript `Math.ceil(a / b)` on nonnegative integers with `b > 0`. -/
def jsCeilDiv (a b : Nat) : Nat := (a + b - 1) / b

namespace MatmulLws

/-- `getMaxComponents` of `matmul_lws_webgpu.ts`: 4 if it divides `size`,
else 2 if it divides, else 1. -/
def getMaxComponents (size : Nat) : Nat :=
  if size % 4 = 0 then 4
  else if size % 2 = 0 then 2
  else 1

/-- `this.components = N % 4 === 0 ? 4 : 1` of the matmul constructor. -/
def components (N : Nat) : Nat := if N % 4 = 0 then 4 else 1

/-- `this.tileN = N < 32 ? N : 32`. -/
def tileN (N : Nat) : Nat := if N < 32 then N else 32

/-- `this.tileM = M < 32 ? M : 32`. -/
def tileM (M : Nat) : Nat := if M < 32 then M else 32

/-- `this.tileK = K < 32 ? K : (K > 1000 ? 32 : 16)`. -/
def tileK (K : Nat) : Nat := if K < 32 then K else if 1000 < K then 32 else 16

/-- `this.outputNumber = this.tileM < 4 ? this.tileM :
getMaxComponents(this.tileM)`. -/
def outputNumber (M : Nat) : Nat :=
  if tileM M < 4 then tileM M else getMaxComponents (tileM M)

end MatmulLws

namespace Conv2dMmLws

/-- `getMaxComponents` of the `Conv2DMMLWSProgram` source file: 4 if it
divides `size`, else 3 if it divides, else 2 if it divides, else 1. -/
def getMaxComponents (size : Nat) : Nat :=
  if size % 4 = 0 then 4
  else if size % 3 = 0 then 3
  else if size % 2 = 0 then 2
  else 1

/-- `this.components = N % 4 === 0 ? 4 : 1` of the conv constructor. -/
def components (N : Nat) : Nat := if N % 4 = 0 then 4 else 1

/-- `this.tileN = N < 32 ? N : 32`. -/
def tileN (N : Nat) : Nat := if N < 32 then N else 32

/-- `this.tileM = M < 32 ? M : 32`. -/
def tileM (M : Nat) : Nat := if M < 32 then M else 32

/-- `this.tileK = K < 32 ? K : (K > 1000 ?
Math.ceil(32 / this.aComponents) * this.aComponents :
Math.ceil(16 / this.aComponents) * this.aComponents)`. -/
def tileK (K : Nat) : Nat :=
  if K < 32 then K
  else if 1000 < K then jsCeilDiv 32 (getMaxComponents K) * getMaxComponents K
  else jsCeilDiv 16 (getMaxComponents K) * getMaxComponents K

/-- `this.outputNumber = this.tileM < 4 ? this.tileM :
getMaxComponents(this.tileM)`. -/
def outputNumber (M : Nat) : Nat :=
  if tileM M < 4 then tileM M else getMaxComponents (tileM M)

end Conv2dMmLws

/-- `TensorInfo` of tfjs-core; only its presence (non-null argument) is read
by the constructors. -/
structure TensorInfo where
  shape : List Nat := []
deriving DecidableEq

/-- The `shaderKey` template string of `MatMulLWSProgram`. -/
def mmShaderKey (activation : Option Activation)
    (transposeA transposeB fitAOuter fitBOuter fitInner : Bool)
    (tileK tileM tileN components aComponents outputNumber : Nat) :
    List Char :=
  lc "matMulLWS_" ++ activationChars activation ++ lc "_" ++
  boolChars transposeA ++ lc "_" ++ boolChars transposeB ++ lc "_" ++
  boolChars fitAOuter ++ lc "_" ++ boolChars fitBOuter ++ lc "_" ++
  boolChars fitInner ++ lc "_" ++ natChars tileK ++ lc "_" ++
  natChars tileM ++ lc "_" ++ natChars tileN ++ lc "_" ++
  natChars components ++ lc "_" ++ natChars aComponents ++ lc "_" ++
  natChars outputNumber

/-- `MatMulLWSProgram` (the class fields after construction). -/
structure MatMulLWSProgram where
  outputShape : Nat × Nat × Nat
  shaderKey : List Char
  dispatchLayout : List Nat × List Nat × List Nat
  dispatch : Nat × Nat × Nat
  variableNames : List (List Char)
  variableComponents : List Nat
  outputComponent : Nat
  uniforms : List Char
  workgroupSize : Nat × Nat × Nat
  transposeA : Bool
  transposeB : Bool
  addBias : Bool
  activation : Option Activation
  hasPreluActivationWeights : Bool
  components : Nat
  aComponents : Nat
  outputNumber : Nat
  fitAOuter : Bool
  fitBOuter : Bool
  fitInner : Bool
  tileN : Nat
  tileM : Nat
  tileK : Nat
deriving DecidableEq

/-- The `MatMulLWSProgram` constructor.  `Except` models the
`ConfigurationError` throw; `Option TensorInfo` models the nullable `bias`
and `preluActivationWeights` arguments. -/
def MatMulLWSProgram.construct (outputShape : Nat × Nat × Nat)
    (sharedDim : Nat) (transposeA transposeB : Bool)
    (bias : Option TensorInfo) (activation : Option Activation)
    (preluActivationWeights : Option TensorInfo) :
    Except (List Char) MatMulLWSProgram :=
  let batch := outputShape.1
  let M := outputShape.2.1
  let N := outputShape.2.2
  let K := sharedDim
  let components := MatmulLws.components N
  let aComponents := MatmulLws.getMaxComponents K
  let tileN := MatmulLws.tileN N
  let tileM := MatmulLws.tileM M
  let tileK := MatmulLws.tileK K
  let outputNumber := MatmulLws.outputNumber M
  if !(jsModEqZero tileN components) || !(jsModEqZero tileM outputNumber)
      || !(jsModEqZero tileK aComponents) then
    .error (lc "tileN(" ++ natChars tileN
      ++ lc ") must be divisible by components(" ++ natChars components
      ++ lc "), tileM(" ++ natChars tileM
      ++ lc ") must be divisible by outputNumber(" ++ natChars outputNumber
      ++ lc "), tileK(" ++ natChars tileK
      ++ lc ") must be divisible by aComponents(" ++ natChars aComponents
      ++ lc ")")
  else
    let numWorkgroups := batch * jsCeilDiv M tileM * jsCeilDiv N tileN
    let addBias := bias.isSome
    let hasPreluActivationWeights := preluActivationWeights.isSome
    let fitAOuter := jsModEqZero M tileM
    let fitBOuter := jsModEqZero N tileN
    let fitInner := jsModEqZero K tileK
    .ok {
      outputShape := outputShape
      shaderKey := mmShaderKey activation transposeA transposeB fitAOuter
        fitBOuter fitInner tileK tileM tileN components aComponents
        outputNumber
      dispatchLayout := ([], [1, 2], [0])
      dispatch := (numWorkgroups, 1, 1)
      variableNames := [lc "A", lc "B"]
        ++ (if addBias then [lc "bias"] else [])
        ++ (if hasPreluActivationWeights then [lc "preluActivationWeights"]
            else [])
      variableComponents := [aComponents, components]
        ++ (if addBias then [components] else [])
        ++ (if hasPreluActivationWeights then [components] else [])
      outputComponent := components
      uniforms := lc "dimAOuter : i32, dimBOuter : i32, dimInner : i32,"
      workgroupSize := (64, 1, 1)
      transposeA := transposeA
      transposeB := transposeB
      addBias := addBias
      activation := activation
      hasPreluActivationWeights := hasPreluActivationWeights
      components := components
      aComponents := aComponents
      outputNumber := outputNumber
      fitAOuter := fitAOuter
      fitBOuter := fitBOuter
      fitInner := fitInner
      tileN := tileN
      tileM := tileM
      tileK := tileK }

/-- `MatMulLWSProgram.getUserCode`.  `Except` propagates the modelled
generation-time rejection from the activation snippet library. -/
def MatMulLWSProgram.getUserCode (p : MatMulLWSProgram) :
    Except (List Char) (List Char) :=
  match activationFnSnippet p.activation p.hasPreluActivationWeights
      (p.components == 4) with
  | .error e => .error e
  | .ok act =>
    .ok (lc "\n      " ++ act ++ lc "\n      " ++
      matMulReadWriteFnSource p.addBias p.activation p.transposeA p.transposeB
        p.fitAOuter p.fitBOuter p.fitInner p.components p.aComponents ++
      lc "\n      " ++
      makeMatMulLWSSource p.workgroupSize.1 p.outputNumber p.components
        p.aComponents p.tileM p.tileN p.tileK false ++
      lc "\n    ")

/-- Data layout of `backend_util.Conv2DInfo`. -/
inductive DataFormat where
  | channelsLast | channelsFirst
deriving DecidableEq, BEq

/-- The part of `backend_util.Conv2DInfo` read by the constructor. -/
structure Conv2DInfo where
  outShape : List Nat
  dataFormat : DataFormat
deriving DecidableEq

/-- The `shaderKey` template string of `Conv2DMMLWSProgram` (note the stray
closing brace after the activation, exactly as in the source). -/
def convShaderKey (activation : Option Activation)
    (fitAOuter fitBOuter fitInner : Bool)
    (tileK tileM tileN components aComponents outputNumber : Nat) :
    List Char :=
  lc "conv2DMMLWS_" ++ activationChars activation ++ lc "\x7d_" ++
  boolChars fitAOuter ++ lc "_" ++ boolChars fitBOuter ++ lc "_" ++
  boolChars fitInner ++ lc "_" ++ natChars tileK ++ lc "_" ++
  natChars tileM ++ lc "_" ++ natChars tileN ++ lc "_" ++
  natChars components ++ lc "_" ++ natChars aComponents ++ lc "_" ++
  natChars outputNumber

/-- `Conv2DMMLWSProgram` (the class fields after construction). -/
structure Conv2DMMLWSProgram where
  outputShape : List Nat
  shaderKey : List Char
  dispatchLayout : List Nat × List Nat × List Nat
  dispatch : Nat × Nat × Nat
  variableNames : List (List Char)
  variableComponents : List Nat
  outputComponent : Nat
  uniforms : List Char
  workgroupSize : Nat × Nat × Nat
  addBias : Bool
  activation : Option Activation
  hasPreluActivationWeights : Bool
  isChannelsLast : Bool
  fitAOuter : Bool
  fitBOuter : Bool
  fitInner : Bool
  components : Nat
  aComponents : Nat
  outputNumber : Nat
  tileN : Nat
  tileM : Nat
  tileK : Nat
deriving DecidableEq

/-- The `Conv2DMMLWSProgram` constructor.  `Except` models the
`ConfigurationError` throw.  On integers,
`Math.ceil(x / aComponents) * aComponents` is
`jsCeilDiv x aComponents * aComponents`. -/
def Conv2DMMLWSProgram.construct (convInfo : Conv2DInfo) (M N K : Nat)
    (addBias : Bool) (activation : Option Activation)
    (hasPreluActivationWeights : Bool) :
    Except (List Char) Conv2DMMLWSProgram :=
  let outputShape := convInfo.outShape
  let isChannelsLast := convInfo.dataFormat == DataFormat.channelsLast
  let batch := outputShape.getD 0 0
  let components := Conv2dMmLws.components N
  let aComponents := Conv2dMmLws.getMaxComponents K
  let tileN := Conv2dMmLws.tileN N
  let tileM := Conv2dMmLws.tileM M
  let tileK := Conv2dMmLws.tileK K
  let outputNumber := Conv2dMmLws.outputNumber M
  if !(jsModEqZero tileN components) || !(jsModEqZero tileM outputNumber)
      || !(jsModEqZero tileK aComponents) then
    .error (lc "tileN(" ++ natChars tileN
      ++ lc ") must be divisible by components(" ++ natChars components
      ++ lc "), tileM(" ++ natChars tileM
      ++ lc ") must be divisible by outputNumber(" ++ natChars outputNumber
      ++ lc "), tileK(" ++ natChars tileK
      ++ lc ") must be divisible by aComponents(" ++ natChars aComponents
      ++ lc ")")
  else
    let numWorkgroups := batch * jsCeilDiv M tileM * jsCeilDiv N tileN
    .ok {
      outputShape := outputShape
      shaderKey := convShaderKey activation (jsModEqZero M tileM)
        (jsModEqZero N tileN) (jsModEqZero K tileK) tileK tileM tileN
        components aComponents outputNumber
      dispatchLayout := ([3], [1, 2], [0])
      dispatch := (numWorkgroups, 1, 1)
      variableNames := [lc "x", lc "W"]
        ++ (if addBias then [lc "bias"] else [])
        ++ (if hasPreluActivationWeights then [lc "preluActivationWeights"]
            else [])
      variableComponents :=
        [if aComponents = 3 then 1 else aComponents, components]
        ++ (if addBias then [components] else [])
        ++ (if hasPreluActivationWeights then [components] else [])
      outputComponent := components
      uniforms := lc "filterDims : vec2<i32>, pads : vec2<i32>, strides : vec2<i32>, dilations : vec2<i32>, dimAOuter : i32, dimBOuter : i32, dimInner : i32,"
      workgroupSize := (64, 1, 1)
      addBias := addBias
      activation := activation
      hasPreluActivationWeights := hasPreluActivationWeights
      isChannelsLast := isChannelsLast
      fitAOuter := jsModEqZero M tileM
      fitBOuter := jsModEqZero N tileN
      fitInner := jsModEqZero K tileK
      components := components
      aComponents := aComponents
      outputNumber := outputNumber
      tileN := tileN
      tileM := tileM
      tileK := tileK }

/-- `Conv2DMMLWSProgram.getUserCode`.  `Except` propagates the modelled
generation-time rejection from the snippet library. -/
def Conv2DMMLWSProgram.getUserCode (p : Conv2DMMLWSProgram) :
    Except (List Char) (List Char) :=
  match conv2dCommonSnippet p.isChannelsLast p.fitAOuter p.fitBOuter
      p.fitInner p.addBias p.activation p.hasPreluActivationWeights
      p.aComponents p.components p.components with
  | .error e => .error e
  | .ok snip =>
    .ok (lc "\n    " ++ snip ++ lc "\n    " ++
      makeMatMulLWSSource p.workgroupSize.1 p.outputNumber p.components
        p.aComponents p.tileM p.tileN p.tileK true ++
      lc "\n  ")

/-- Field extraction from a possibly-failed construction (default on
error). -/
def getOr {α β : Type} (d : β) (f : α → β) : Except (List Char) α → β
  | .ok a => f a
  | .error _ => d

/-- Kernel-generation pipeline of the matmul variant: construct, then
generate text (either step may reject). -/
def mmGeneratedResult (e : Except (List Char) MatMulLWSProgram) :
    Except (List Char) (List Char) :=
  match e with
  | .ok p => p.getUserCode
  | .error err => .error err

/-- Kernel-generation pipeline of the conv variant. -/
def convGeneratedResult (e : Except (List Char) Conv2DMMLWSProgram) :
    Except (List Char) (List Char) :=
  match e with
  | .ok p => p.getUserCode
  | .error err => .error err

instance exceptDecEq {e a : Type} [DecidableEq e] [DecidableEq a] :
    DecidableEq (Except e a) := fun x y =>
  match x, y with
  | .ok v, .ok w =>
    if h : v = w then isTrue (by rw [h])
    else isFalse (by intro hc; cases hc; exact h rfl)
  | .error v, .error w =>
    if h : v = w then isTrue (by rw [h])
    else isFalse (by intro hc; cases hc; exact h rfl)
  | .ok _, .error _ => isFalse (by intro hc; cases hc)
  | .error _, .ok _ => isFalse (by intro hc; cases hc)

/-- Placeholder program, used only as the `getOr` default when extracting a
concrete constructed program. -/
def convDefault : Conv2DMMLWSProgram where
  outputShape := []
  shaderKey := []
  dispatchLayout := ([], [], [])
  dispatch := (0, 0, 0)
  variableNames := []
  variableComponents := []
  outputComponent := 0
  uniforms := []
  workgroupSize := (0, 0, 0)
  addBias := false
  activation := none
  hasPreluActivationWeights := false
  isChannelsLast := false
  fitAOuter := false
  fitBOuter := false
  fitInner := false
  components := 0
  aComponents := 0
  outputNumber := 0
  tileN := 0
  tileM := 0
  tileK := 0

/-- A concrete conv program with aComponents = 3 (M=8, N=4, K=6). -/
def convSample : Conv2DMMLWSProgram :=
  getOr convDefault id
    (Conv2DMMLWSProgram.construct ⟨[1, 2, 2, 4], .channelsLast⟩ 8 4 6 false
      none false)

/-- The kernel text generated for `convSample`. -/
def convSampleText : List Char := getOr [] id convSample.getUserCode

/-- Total per-fragment occurrence count of a fragment list. -/
def sumOcc (p : List Char) (fs : List Frag) : Nat := (fs.map (occFrag p)).sum

/-- The shared-memory declaration pattern counted in the kernel text. -/
def vwPat : List Char := lc "var<workgroup>"

/-- The barrier-call pattern counted in the kernel text. -/
def wbPat : List Char := lc "workgroupBarrier()"

/-- First fragment of every unrolled fma. -/
def jHeadFrag : Frag := .lit (lc "\n          values[")

/-- Last fragment of every unrolled fma. -/
def jLastFrag : Frag := .lit (lc "]);\n")

/-- First fragment of every unrolled `bData` load. -/
def bDataHeadFrag : Frag := .lit (lc "\n            let bData")

/-- Last fragment of every unrolled `bData` load. -/
def bDataLastFrag : Frag := .lit (lc "][localCol];")

/-- First fragment of every unrolled output row. -/
def iHeadFrag : Frag := .lit (lc "aData = mm_Asub[localRow + ")

/-- Fragment list of the kernel text before the first barrier. -/
def lwsLoadsFrags (ws on_ c ac tM tN tK : Nat) (isConv : Bool) : List Frag :=
  (lwsDeclA ac tM tK ++ lwsDeclB c tN tK)
    ++ lwsHead ws on_ c ac tM tN tK isConv

/-- Fragment list of the kernel text after the two declarations. -/
def lwsRestFrags (ws on_ c ac tM tN tK : Nat) (isConv : Bool) : List Frag :=
  (((lwsHead ws on_ c ac tM tN tK isConv ++ [lwsBarrierFrag])
    ++ lwsCompute ws on_ c ac tM tN tK) ++ [lwsBarrierFrag])
    ++ lwsTail ws on_ c tM tN

theorem natCharsAux_eq_digits {fuel n : Nat} (h : n ≤ fuel) :
    natCharsAux fuel n = ((Nat.digits 10 n).map digitChar).reverse := by
  induction fuel generalizing n with
  | zero =>
    interval_cases n
    simp [natCharsAux]
  | succ fuel ih =>
    by_cases hn : n = 0
    · simp [natCharsAux, hn]
    · have hdiv : n / 10 ≤ fuel := by
        have : n / 10 < n := Nat.div_lt_self (Nat.pos_of_ne_zero hn) (by norm_num)
        omega
      rw [natCharsAux, if_neg hn, ih hdiv,
        Nat.digits_def' (b := 10) (by norm_num) (Nat.pos_of_ne_zero hn)]
      simp

theorem natChars_eq_digits {n : Nat} (h : n ≠ 0) :
    natChars n = ((Nat.digits 10 n).map digitChar).reverse := by
  rw [natChars, if_neg h, natCharsAux_eq_digits le_rfl]

theorem digitChar_isDigit {d : Nat} (h : d < 10) : (digitChar d).isDigit = true := by
  interval_cases d <;> decide

theorem natChars_ne_nil (n : Nat) : natChars n ≠ [] := by
  by_cases h : n = 0
  · simp [natChars, h, lc]
  · rw [natChars_eq_digits h]
    simp [Nat.digits_ne_nil_iff_ne_zero.mpr h]

theorem natChars_all_digits {n : Nat} {c : Char} (hc : c ∈ natChars n) :
    c.isDigit = true := by
  by_cases h : n = 0
  · simp [natChars, h, lc] at hc
    subst hc; decide
  · rw [natChars_eq_digits h] at hc
    simp only [List.mem_reverse, List.mem_map] at hc
    obtain ⟨d, hd, rfl⟩ := hc
    exact digitChar_isDigit (Nat.digits_lt_base (by norm_num) hd)

theorem unDigit_digitChar {d : Nat} (h : d < 10) : unDigit (digitChar d) = d := by
  interval_cases d <;> decide

theorem unNatChars_natChars (n : Nat) : unNatChars (natChars n) = n := by
  by_cases h : n = 0
  · simp [natChars, h, lc, unNatChars, Nat.ofDigits]
    decide
  · rw [natChars_eq_digits h, unNatChars, List.reverse_reverse, List.map_map]
    have hmap : (Nat.digits 10 n).map (unDigit ∘ digitChar) = Nat.digits 10 n := by
      have := List.map_congr_left (l := Nat.digits 10 n)
        (f := unDigit ∘ digitChar) (g := id)
        (fun d hd => unDigit_digitChar (Nat.digits_lt_base (by norm_num) hd))
      rw [this, List.map_id]
    rw [hmap, Nat.ofDigits_digits]

theorem natChars_injective {m n : Nat} (h : natChars m = natChars n) : m = n := by
  have := congrArg unNatChars h
  rwa [unNatChars_natChars, unNatChars_natChars] at this

theorem prefix_append_cons_iff {p a t : List Char} {c : Char} (ha : a ≠ [])
    (hc : c ∉ p.drop 1) : (p <+: a ++ c :: t) ↔ p <+: a := by
  constructor
  · intro h
    by_cases hlen : p.length ≤ a.length
    · exact List.prefix_of_prefix_length_le h (List.prefix_append a (c :: t)) hlen
    · exfalso
      have hap : a <+: p :=
        List.prefix_of_prefix_length_le (List.prefix_append a (c :: t)) h
          (le_of_not_le hlen)
      obtain ⟨p', rfl⟩ := hap
      have hp' : p' <+: c :: t := (List.prefix_append_right_inj a).mp h
      cases p' with
      | nil => simp at hlen
      | cons d p'' =>
        obtain ⟨u, hu⟩ := hp'
        have hd : d = c := by
          have := congrArg (·.head?) hu
          simpa using this
        subst hd
        apply hc
        obtain ⟨x, a', rfl⟩ := List.exists_cons_of_ne_nil ha
        rw [List.cons_append, List.drop_one, List.tail_cons]
        exact List.mem_append_right a' (List.mem_cons_self d p'')
  · intro h
    exact h.trans (List.prefix_append a (c :: t))

theorem prefix_append_snoc_iff {p a b : List Char} {c : Char}
    (hc : c ∉ p.dropLast) : (p <+: (a ++ [c]) ++ b) ↔ p <+: a ++ [c] := by
  constructor
  · intro h
    by_cases hlen : p.length ≤ (a ++ [c]).length
    · exact List.prefix_of_prefix_length_le h (List.prefix_append _ _) hlen
    · exfalso
      have := List.prefix_of_prefix_length_le (List.prefix_append (a ++ [c]) b) h
        (le_of_not_le hlen)
      obtain ⟨p', rfl⟩ := this
      cases p' with
      | nil => simp at hlen
      | cons e p'' =>
        apply hc
        rw [List.append_assoc, List.singleton_append, List.dropLast_append_cons]
        exact List.mem_append_right a
          (List.mem_cons_self c ((e :: p'').dropLast))
  · intro h
    exact h.trans (List.prefix_append _ _)

@[simp] theorem occ_nil (p : List Char) : occ p [] = 0 := rfl

/-- Occurrence counting splits at a boundary whose right side begins with a
character that cannot occur at positions ≥ 1 of the pattern: an occurrence
crossing the boundary from the left would place that character at such a
position. -/
theorem occ_append_of_head_notin {p t : List Char} {c : Char}
    (hc : c ∉ p.drop 1) :
    ∀ {a : List Char}, occ p (a ++ c :: t) = occ p a + occ p (c :: t)
  | [] => by simp
  | x :: a => by
    calc occ p ((x :: a) ++ c :: t)
        = (if p <+: (x :: a) ++ c :: t then 1 else 0) + occ p (a ++ c :: t) := rfl
      _ = (if p <+: x :: a then 1 else 0) + (occ p a + occ p (c :: t)) := by
            rw [if_congr (prefix_append_cons_iff (List.cons_ne_nil x a) hc) rfl rfl,
              occ_append_of_head_notin hc]
      _ = ((if p <+: x :: a then 1 else 0) + occ p a) + occ p (c :: t) := by omega
      _ = occ p (x :: a) + occ p (c :: t) := rfl

/-- Occurrence counting splits at a boundary whose left side ends with a
character that cannot occur at positions < |p| - 1 of the pattern: an
occurrence crossing the boundary to the right would place that character at
such a position. -/
theorem occ_append_of_last_notin {p b : List Char} {c : Char}
    (hc : c ∉ p.dropLast) :
    ∀ {a : List Char}, occ p ((a ++ [c]) ++ b) = occ p (a ++ [c]) + occ p b
  | [] => by
    cases b with
    | nil => simp
    | cons d t =>
      have key : (p <+: c :: d :: t) ↔ p <+: [c] := by
        simpa using prefix_append_snoc_iff (a := ([] : List Char)) (b := d :: t) hc
      show occ p (c :: d :: t) = occ p [c] + occ p (d :: t)
      rw [show occ p (c :: d :: t)
            = (if p <+: c :: d :: t then 1 else 0) + occ p (d :: t) from rfl,
        show occ p [c] = (if p <+: [c] then 1 else 0) + occ p [] from rfl,
        if_congr key rfl rfl]
      simp
  | x :: a => by
    calc occ p (((x :: a) ++ [c]) ++ b)
        = (if p <+: ((x :: a) ++ [c]) ++ b then 1 else 0) + occ p ((a ++ [c]) ++ b) := rfl
      _ = (if p <+: (x :: a) ++ [c] then 1 else 0) + (occ p (a ++ [c]) + occ p b) := by
            rw [if_congr (prefix_append_snoc_iff hc) rfl rfl,
              occ_append_of_last_notin hc]
      _ = ((if p <+: (x :: a) ++ [c] then 1 else 0) + occ p (a ++ [c])) + occ p b := by
            omega
      _ = occ p ((x :: a) ++ [c]) + occ p b := rfl

/-- A pattern that contains a non-digit character never occurs inside an
all-digits string. -/
theorem occ_eq_zero_of_all_digits {p m : List Char}
    (hp : ∃ c ∈ p, c.isDigit = false) (hm : ∀ c ∈ m, c.isDigit = true) :
    occ p m = 0 := by
  induction m with
  | nil => rfl
  | cons c s ih =>
    rw [occ, ih (fun x hx => hm x (List.mem_cons_of_mem c hx))]
    obtain ⟨d, hdp, hd⟩ := hp
    have : ¬ (p <+: c :: s) := by
      intro hpre
      obtain ⟨u, hu⟩ := hpre
      have : d ∈ c :: s := hu ▸ List.mem_append_left u hdp
      have := hm d this
      rw [hd] at this
      exact Bool.false_ne_true this
    simp [this]

theorem renderFrags_nil : renderFrags [] = [] := rfl

theorem renderFrags_cons (f : Frag) (fs : List Frag) :
    renderFrags (f :: fs) = f.render ++ renderFrags fs := by
  simp [renderFrags]

theorem renderFrags_append (a b : List Frag) :
    renderFrags (a ++ b) = renderFrags a ++ renderFrags b := by
  simp [renderFrags]

theorem notin_of_contains_false {p : List Char} {c : Char}
    (h : p.contains c = false) : c ∉ p := by
  simp at h
  exact h

theorem notin_drop_one {p : List Char} {c : Char} (h : c ∉ p) :
    c ∉ p.drop 1 := fun hm => h (List.drop_subset 1 p hm)

theorem notin_dropLast {p : List Char} {c : Char} (h : c ∉ p) :
    c ∉ p.dropLast := fun hm => h (List.dropLast_subset p hm)

theorem notin_of_isDigit {p : List Char} (hdig : ∀ c ∈ p, c.isDigit = false)
    {c : Char} (hc : c.isDigit = true) : c ∉ p := by
  intro hmem
  rw [hdig c hmem] at hc
  exact Bool.false_ne_true hc

theorem headNotInB_exists {p : List Char} (hdig : ∀ c ∈ p, c.isDigit = false)
    {f : Frag} (h : f.headNotInB p = true) :
    ∃ c t, f.render = c :: t ∧ c ∉ p.drop 1 := by
  cases f with
  | lit s =>
    cases s with
    | nil => simp [Frag.headNotInB] at h
    | cons c t =>
      refine ⟨c, t, rfl, ?_⟩
      rw [Frag.headNotInB, Bool.not_eq_true'] at h
      exact notin_of_contains_false h
  | num n =>
    obtain ⟨c, t, hct⟩ := List.exists_cons_of_ne_nil (natChars_ne_nil n)
    refine ⟨c, t, hct, notin_drop_one (notin_of_isDigit hdig ?_)⟩
    exact natChars_all_digits (hct ▸ List.mem_cons_self c t)
  | ts comp =>
    rw [Frag.headNotInB, Bool.and_eq_true, Bool.not_eq_true',
      Bool.not_eq_true'] at h
    have hf := notin_of_contains_false h.1
    have hv := notin_of_contains_false h.2
    show ∃ c t, typeSnippet comp = c :: t ∧ c ∉ p.drop 1
    unfold typeSnippet
    split
    · exact ⟨'f', lc "32", rfl, hf⟩
    · split
      · exact ⟨'v', lc "ec2<f32>", rfl, hv⟩
      · split
        · exact ⟨'v', lc "ec3<f32>", rfl, hv⟩
        · exact ⟨'v', lc "ec4<f32>", rfl, hv⟩
  | batchA b =>
    rw [Frag.headNotInB, Bool.not_eq_true'] at h
    have hi := notin_of_contains_false h
    cases b with
    | true => exact ⟨'i', lc "32(batch)", rfl, hi⟩
    | false => exact ⟨'i', lc "32(batch) % uniforms.aShape[0]", rfl, hi⟩
  | batchB b =>
    rw [Frag.headNotInB, Bool.and_eq_true, Bool.not_eq_true',
      Bool.not_eq_true'] at h
    have h0 := notin_of_contains_false h.1
    have hi := notin_of_contains_false h.2
    cases b with
    | true => exact ⟨'0', lc "i", rfl, h0⟩
    | false => exact ⟨'i', lc "32(batch) % uniforms.bShape[0]", rfl, hi⟩

theorem lastNotInB_exists {p : List Char} (hdig : ∀ c ∈ p, c.isDigit = false)
    {f : Frag} (h : f.lastNotInB p = true) :
    ∃ a c, f.render = a ++ [c] ∧ c ∉ p.dropLast := by
  cases f with
  | lit s =>
    rw [Frag.lastNotInB] at h
    rcases hl : s.getLast? with - | c
    · rw [hl] at h; simp at h
    · rw [hl] at h
      obtain ⟨a, ha⟩ := List.getLast?_eq_some_iff.mp hl
      rw [Bool.not_eq_true'] at h
      exact ⟨a, c, ha, notin_of_contains_false h⟩
  | num n =>
    have hs := natChars_ne_nil n
    refine ⟨(natChars n).dropLast, (natChars n).getLast hs,
      (List.dropLast_append_getLast hs).symm,
      notin_dropLast (notin_of_isDigit hdig ?_)⟩
    exact natChars_all_digits (List.getLast_mem hs)
  | ts comp =>
    rw [Frag.lastNotInB, Bool.and_eq_true, Bool.not_eq_true',
      Bool.not_eq_true'] at h
    have h2 := notin_of_contains_false h.1
    have hgt := notin_of_contains_false h.2
    show ∃ a c, typeSnippet comp = a ++ [c] ∧ c ∉ p.dropLast
    unfold typeSnippet
    split
    · exact ⟨lc "f3", '2', rfl, h2⟩
    · split
      · exact ⟨lc "vec2<f32", '>', rfl, hgt⟩
      · split
        · exact ⟨lc "vec3<f32", '>', rfl, hgt⟩
        · exact ⟨lc "vec4<f32", '>', rfl, hgt⟩
  | batchA b =>
    rw [Frag.lastNotInB, Bool.and_eq_true, Bool.not_eq_true',
      Bool.not_eq_true'] at h
    have hp := notin_of_contains_false h.1
    have hb := notin_of_contains_false h.2
    cases b with
    | true => exact ⟨lc "i32(batch", ')', rfl, hp⟩
    | false => exact ⟨lc "i32(batch) % uniforms.aShape[0", ']', rfl, hb⟩
  | batchB b =>
    rw [Frag.lastNotInB, Bool.and_eq_true, Bool.not_eq_true',
      Bool.not_eq_true'] at h
    have hi := notin_of_contains_false h.1
    have hb := notin_of_contains_false h.2
    cases b with
    | true => exact ⟨lc "0", 'i', rfl, hi⟩
    | false => exact ⟨lc "i32(batch) % uniforms.bShape[0", ']', rfl, hb⟩

theorem occ_render_eq_occFrag {p : List Char} (hp : PatOk p) (f : Frag) :
    occ p f.render = occFrag p f := by
  cases f with
  | lit s => rfl
  | num n =>
    obtain ⟨c, t, hct⟩ := List.exists_cons_of_ne_nil hp.ne
    refine occ_eq_zero_of_all_digits ⟨c, ?_, ?_⟩
      (fun d hd => natChars_all_digits hd)
    · rw [hct]; exact List.mem_cons_self c t
    · exact hp.dig c (hct ▸ List.mem_cons_self c t)
  | ts comp => exact hp.ts_occ comp
  | batchA b => exact hp.ba_occ b
  | batchB b => exact hp.bb_occ b

/-- Master counting theorem: for a `PatOk` pattern, occurrences in the
rendered text are exactly the occurrences inside individual fragments,
provided adjacent fragments are separated by suitable boundary
characters. -/
theorem occ_renderFrags {p : List Char} (hp : PatOk p) :
    ∀ {fs : List Frag}, fs.all Frag.neB = true → chainOk p fs = true →
      occ p (renderFrags fs) = (fs.map (occFrag p)).sum
  | [] => by intro _ _; rfl
  | [f] => by
    intro _ _
    rw [renderFrags_cons, renderFrags_nil, List.append_nil]
    simp [occ_render_eq_occFrag hp]
  | f :: g :: fs => by
    intro hne hch
    rw [chainOk, Bool.and_eq_true] at hch
    rw [List.all_cons, Bool.and_eq_true] at hne
    have ih := @occ_renderFrags p hp (g :: fs) hne.2 hch.2
    rw [renderFrags_cons]
    have hsplit : occ p (f.render ++ renderFrags (g :: fs))
        = occ p f.render + occ p (renderFrags (g :: fs)) := by
      rcases Bool.or_eq_true _ _ |>.mp hch.1 with hlast | hhead
      · obtain ⟨a, c, hfr, hcp⟩ := lastNotInB_exists hp.dig hlast
        rw [hfr]
        exact occ_append_of_last_notin hcp
      · obtain ⟨c, t, hgr, hcp⟩ := headNotInB_exists hp.dig hhead
        rw [renderFrags_cons g fs, hgr]
        exact occ_append_of_head_notin hcp
    rw [hsplit, ih, occ_render_eq_occFrag hp]
    simp

theorem chainOk_append {p : List Char} : ∀ {a b : List Frag},
    chainOk p a = true → chainOk p b = true →
    (∀ f ∈ a.getLast?, ∀ g ∈ b.head?, sepOk p f g = true) →
    chainOk p (a ++ b) = true
  | [], b => by intro _ hb _; simpa
  | [f], b => by
    intro _ hb hab
    cases b with
    | nil => simp [chainOk]
    | cons g b' =>
      show chainOk p (f :: g :: b') = true
      rw [chainOk, Bool.and_eq_true]
      exact ⟨hab f (by simp) g (by simp), hb⟩
  | f :: f' :: a', b => by
    intro ha hb hab
    rw [chainOk, Bool.and_eq_true] at ha
    have ih := chainOk_append (a := f' :: a') ha.2 hb (by
      intro x hx g hg
      apply hab x _ g hg
      rwa [List.getLast?_cons_cons])
    show chainOk p (f :: ((f' :: a') ++ b)) = true
    rw [show (f' :: a') ++ b = f' :: (a' ++ b) from rfl] at ih ⊢
    rw [chainOk, Bool.and_eq_true]
    exact ⟨ha.1, ih⟩

theorem frags_all_neB_append {a b : List Frag} (ha : a.all Frag.neB = true)
    (hb : b.all Frag.neB = true) : (a ++ b).all Frag.neB = true := by
  rw [List.all_append, ha, hb]
  rfl

/-- Splitting a separator-terminated field off two equal concatenations: if
the separator occurs in neither field, the fields and the tails agree. -/
theorem append_sep_inj {α : Type} {s : α} {a : List α} :
    ∀ {b x y : List α}, s ∉ a → s ∉ b → a ++ s :: x = b ++ s :: y →
    a = b ∧ x = y := by
  induction a with
  | nil =>
    intro b x y _ hb h
    cases b with
    | nil => simpa using h
    | cons d b' =>
      rw [List.nil_append, List.cons_append] at h
      injection h with h1 h2
      exact absurd (by rw [h1]; exact List.mem_cons_self d b') hb
  | cons c a' ih =>
    intro b x y ha hb h
    cases b with
    | nil =>
      rw [List.nil_append, List.cons_append] at h
      injection h with h1 h2
      exact absurd (by rw [← h1]; exact List.mem_cons_self c a') ha
    | cons d b' =>
      rw [List.cons_append, List.cons_append] at h
      injection h with h1 h2
      subst h1
      obtain ⟨he, ht⟩ := ih (fun hm => ha (List.mem_cons_of_mem c hm))
        (fun hm => hb (List.mem_cons_of_mem c hm)) h2
      exact ⟨by rw [he], ht⟩

theorem notin_natChars_of_not_digit {c : Char} (hc : c.isDigit = false)
    (n : Nat) : c ∉ natChars n := by
  intro hmem
  rw [natChars_all_digits hmem] at hc
  exact absurd hc (by decide)

theorem activationChars_injective {a b : Option Activation}
    (h : activationChars a = activationChars b) : a = b := by
  have key : ∀ x y : Option Activation,
      activationChars x = activationChars y → x = y := by decide
  exact key a b h

theorem underscore_notin_activationChars (a : Option Activation) :
    '_' ∉ activationChars a := by
  revert a
  decide

theorem rbrace_notin_activationChars (a : Option Activation) :
    '}' ∉ activationChars a := by
  revert a
  decide

theorem boolChars_injective {a b : Bool} (h : boolChars a = boolChars b) :
    a = b := by
  revert h
  cases a <;> cases b <;> decide

theorem underscore_notin_boolChars (b : Bool) : '_' ∉ boolChars b := by
  cases b <;> decide

theorem underscore_notin_natChars (n : Nat) : '_' ∉ natChars n :=
  notin_natChars_of_not_digit (by decide) n

theorem mm_gmc_mod (n : Nat) : n % MatmulLws.getMaxComponents n = 0 := by
  unfold MatmulLws.getMaxComponents
  split
  · assumption
  · split
    · assumption
    · exact Nat.mod_one n

theorem mm_gmc_pos (n : Nat) : MatmulLws.getMaxComponents n ≠ 0 := by
  unfold MatmulLws.getMaxComponents
  split
  · omega
  · split <;> omega

theorem conv_gmc_mod (n : Nat) : n % Conv2dMmLws.getMaxComponents n = 0 := by
  unfold Conv2dMmLws.getMaxComponents
  split
  · assumption
  · split
    · assumption
    · split
      · assumption
      · exact Nat.mod_one n

theorem conv_gmc_pos (n : Nat) : Conv2dMmLws.getMaxComponents n ≠ 0 := by
  unfold Conv2dMmLws.getMaxComponents
  split
  · omega
  · split
    · omega
    · split <;> omega

theorem mm_tileN_div (N : Nat) :
    jsModEqZero (MatmulLws.tileN N) (MatmulLws.components N) = true := by
  unfold MatmulLws.tileN MatmulLws.components jsModEqZero
  by_cases h4 : N % 4 = 0 <;> by_cases h32 : N < 32 <;>
    simp [h4, h32] <;> omega

theorem conv_tileN_div (N : Nat) :
    jsModEqZero (Conv2dMmLws.tileN N) (Conv2dMmLws.components N) = true := by
  unfold Conv2dMmLws.tileN Conv2dMmLws.components jsModEqZero
  by_cases h4 : N % 4 = 0 <;> by_cases h32 : N < 32 <;>
    simp [h4, h32] <;> omega

theorem mm_tileM_pos {M : Nat} (hM : 1 ≤ M) : 1 ≤ MatmulLws.tileM M := by
  unfold MatmulLws.tileM
  split <;> omega

theorem conv_tileM_pos {M : Nat} (hM : 1 ≤ M) : 1 ≤ Conv2dMmLws.tileM M := by
  unfold Conv2dMmLws.tileM
  split <;> omega

theorem mm_tileM_div {M : Nat} (hM : 1 ≤ M) :
    jsModEqZero (MatmulLws.tileM M) (MatmulLws.outputNumber M) = true := by
  have ht := mm_tileM_pos hM
  unfold MatmulLws.outputNumber jsModEqZero
  split
  · simp
    omega
  · have := mm_gmc_mod (MatmulLws.tileM M)
    have := mm_gmc_pos (MatmulLws.tileM M)
    simp
    omega

theorem conv_tileM_div {M : Nat} (hM : 1 ≤ M) :
    jsModEqZero (Conv2dMmLws.tileM M) (Conv2dMmLws.outputNumber M) = true := by
  have ht := conv_tileM_pos hM
  unfold Conv2dMmLws.outputNumber jsModEqZero
  split
  · simp
    omega
  · have := conv_gmc_mod (Conv2dMmLws.tileM M)
    have := conv_gmc_pos (Conv2dMmLws.tileM M)
    simp
    omega

theorem mm_tileK_div (K : Nat) :
    jsModEqZero (MatmulLws.tileK K) (MatmulLws.getMaxComponents K) = true := by
  have h := mm_gmc_mod K
  have hp := mm_gmc_pos K
  unfold MatmulLws.tileK jsModEqZero
  split
  · simp
    omega
  · unfold MatmulLws.getMaxComponents at hp h ⊢
    split
    · simp
      split <;> omega
    · split
      · simp
        split <;> omega
      · simp [Nat.mod_one]

theorem conv_tileK_div (K : Nat) :
    jsModEqZero (Conv2dMmLws.tileK K) (Conv2dMmLws.getMaxComponents K)
      = true := by
  have h := conv_gmc_mod K
  have hp := conv_gmc_pos K
  unfold Conv2dMmLws.tileK jsModEqZero
  split
  · simp
    omega
  · split <;> simp [Nat.mul_mod_left, hp]

theorem mmConstruct_cond_false {M N K : Nat} (hM : 1 ≤ M) :
    (!(jsModEqZero (MatmulLws.tileN N) (MatmulLws.components N))
      || !(jsModEqZero (MatmulLws.tileM M) (MatmulLws.outputNumber M))
      || !(jsModEqZero (MatmulLws.tileK K) (MatmulLws.getMaxComponents K)))
      = false := by
  rw [mm_tileN_div, mm_tileM_div hM, mm_tileK_div]
  rfl

/-- Under `M ≥ 1` the matmul constructor never throws, and every field has
the stated value. -/
theorem mmConstruct_eq (b M N K : Nat) (tA tB : Bool)
    (bias : Option TensorInfo) (act : Option Activation)
    (prelu : Option TensorInfo) (hM : 1 ≤ M) :
    MatMulLWSProgram.construct (b, M, N) K tA tB bias act prelu = .ok {
      outputShape := (b, M, N)
      shaderKey := mmShaderKey act tA tB (jsModEqZero M (MatmulLws.tileM M))
        (jsModEqZero N (MatmulLws.tileN N)) (jsModEqZero K (MatmulLws.tileK K))
        (MatmulLws.tileK K) (MatmulLws.tileM M) (MatmulLws.tileN N)
        (MatmulLws.components N) (MatmulLws.getMaxComponents K)
        (MatmulLws.outputNumber M)
      dispatchLayout := ([], [1, 2], [0])
      dispatch := (b * jsCeilDiv M (MatmulLws.tileM M)
        * jsCeilDiv N (MatmulLws.tileN N), 1, 1)
      variableNames := [lc "A", lc "B"]
        ++ (if bias.isSome then [lc "bias"] else [])
        ++ (if prelu.isSome then [lc "preluActivationWeights"] else [])
      variableComponents := [MatmulLws.getMaxComponents K, MatmulLws.components N]
        ++ (if bias.isSome then [MatmulLws.components N] else [])
        ++ (if prelu.isSome then [MatmulLws.components N] else [])
      outputComponent := MatmulLws.components N
      uniforms := lc "dimAOuter : i32, dimBOuter : i32, dimInner : i32,"
      workgroupSize := (64, 1, 1)
      transposeA := tA
      transposeB := tB
      addBias := bias.isSome
      activation := act
      hasPreluActivationWeights := prelu.isSome
      components := MatmulLws.components N
      aComponents := MatmulLws.getMaxComponents K
      outputNumber := MatmulLws.outputNumber M
      fitAOuter := jsModEqZero M (MatmulLws.tileM M)
      fitBOuter := jsModEqZero N (MatmulLws.tileN N)
      fitInner := jsModEqZero K (MatmulLws.tileK K)
      tileN := MatmulLws.tileN N
      tileM := MatmulLws.tileM M
      tileK := MatmulLws.tileK K } := by
  simp only [MatMulLWSProgram.construct, mmConstruct_cond_false hM,
    Bool.false_eq_true, if_false]

theorem convConstruct_cond_false {M N K : Nat} (hM : 1 ≤ M) :
    (!(jsModEqZero (Conv2dMmLws.tileN N) (Conv2dMmLws.components N))
      || !(jsModEqZero (Conv2dMmLws.tileM M) (Conv2dMmLws.outputNumber M))
      || !(jsModEqZero (Conv2dMmLws.tileK K) (Conv2dMmLws.getMaxComponents K)))
      = false := by
  rw [conv_tileN_div, conv_tileM_div hM, conv_tileK_div]
  rfl

/-- Under `M ≥ 1` the conv constructor never throws, and every field has the
stated value. -/
theorem convConstruct_eq (ci : Conv2DInfo) (M N K : Nat) (addBias : Bool)
    (act : Option Activation) (hasPrelu : Bool) (hM : 1 ≤ M) :
    Conv2DMMLWSProgram.construct ci M N K addBias act hasPrelu = .ok {
      outputShape := ci.outShape
      shaderKey := convShaderKey act (jsModEqZero M (Conv2dMmLws.tileM M))
        (jsModEqZero N (Conv2dMmLws.tileN N))
        (jsModEqZero K (Conv2dMmLws.tileK K)) (Conv2dMmLws.tileK K)
        (Conv2dMmLws.tileM M) (Conv2dMmLws.tileN N) (Conv2dMmLws.components N)
        (Conv2dMmLws.getMaxComponents K) (Conv2dMmLws.outputNumber M)
      dispatchLayout := ([3], [1, 2], [0])
      dispatch := (ci.outShape.getD 0 0 * jsCeilDiv M (Conv2dMmLws.tileM M)
        * jsCeilDiv N (Conv2dMmLws.tileN N), 1, 1)
      variableNames := [lc "x", lc "W"]
        ++ (if addBias then [lc "bias"] else [])
        ++ (if hasPrelu then [lc "preluActivationWeights"] else [])
      variableComponents :=
        [if Conv2dMmLws.getMaxComponents K = 3 then 1
         else Conv2dMmLws.getMaxComponents K, Conv2dMmLws.components N]
        ++ (if addBias then [Conv2dMmLws.components N] else [])
        ++ (if hasPrelu then [Conv2dMmLws.components N] else [])
      outputComponent := Conv2dMmLws.components N
      uniforms := lc "filterDims : vec2<i32>, pads : vec2<i32>, strides : vec2<i32>, dilations : vec2<i32>, dimAOuter : i32, dimBOuter : i32, dimInner : i32,"
      workgroupSize := (64, 1, 1)
      addBias := addBias
      activation := act
      hasPreluActivationWeights := hasPrelu
      isChannelsLast := ci.dataFormat == DataFormat.channelsLast
      fitAOuter := jsModEqZero M (Conv2dMmLws.tileM M)
      fitBOuter := jsModEqZero N (Conv2dMmLws.tileN N)
      fitInner := jsModEqZero K (Conv2dMmLws.tileK K)
      components := Conv2dMmLws.components N
      aComponents := Conv2dMmLws.getMaxComponents K
      outputNumber := Conv2dMmLws.outputNumber M
      tileN := Conv2dMmLws.tileN N
      tileM := Conv2dMmLws.tileM M
      tileK := Conv2dMmLws.tileK K } := by
  simp only [Conv2DMMLWSProgram.construct, convConstruct_cond_false hM,
    Bool.false_eq_true, if_false]

/-- The matmul `getMaxComponents` is the maximal divisor among [4, 2, 1]. -/
theorem mm_gmc_spec (K : Nat) :
    MatmulLws.getMaxComponents K ∣ K
    ∧ MatmulLws.getMaxComponents K ∈ ([4, 2, 1] : List Nat)
    ∧ ∀ c ∈ ([4, 2, 1] : List Nat), c ∣ K →
        c ≤ MatmulLws.getMaxComponents K := by
  refine ⟨Nat.dvd_of_mod_eq_zero (mm_gmc_mod K), ?_, ?_⟩
  · unfold MatmulLws.getMaxComponents
    split
    · simp
    · split <;> simp
  · intro c hc hdvd
    have hc' : c = 4 ∨ c = 2 ∨ c = 1 := by simpa using hc
    unfold MatmulLws.getMaxComponents
    rcases hc' with rfl | rfl | rfl
    · have h4 : K % 4 = 0 := Nat.dvd_iff_mod_eq_zero.mp hdvd
      simp [h4]
    · have h2 : K % 2 = 0 := Nat.dvd_iff_mod_eq_zero.mp hdvd
      split
      · omega
      · simp [h2]
    · split
      · omega
      · split <;> omega

/-- The conv `getMaxComponents` is the maximal divisor among [4, 3, 2, 1]. -/
theorem conv_gmc_spec (K : Nat) :
    Conv2dMmLws.getMaxComponents K ∣ K
    ∧ Conv2dMmLws.getMaxComponents K ∈ ([4, 3, 2, 1] : List Nat)
    ∧ ∀ c ∈ ([4, 3, 2, 1] : List Nat), c ∣ K →
        c ≤ Conv2dMmLws.getMaxComponents K := by
  refine ⟨Nat.dvd_of_mod_eq_zero (conv_gmc_mod K), ?_, ?_⟩
  · unfold Conv2dMmLws.getMaxComponents
    split
    · simp
    · split
      · simp
      · split <;> simp
  · intro c hc hdvd
    have hc' : c = 4 ∨ c = 3 ∨ c = 2 ∨ c = 1 := by simpa using hc
    unfold Conv2dMmLws.getMaxComponents
    rcases hc' with rfl | rfl | rfl | rfl
    · have h4 : K % 4 = 0 := Nat.dvd_iff_mod_eq_zero.mp hdvd
      simp [h4]
    · have h3 : K % 3 = 0 := Nat.dvd_iff_mod_eq_zero.mp hdvd
      split
      · omega
      · simp [h3]
    · have h2 : K % 2 = 0 := Nat.dvd_iff_mod_eq_zero.mp hdvd
      split
      · omega
      · split
        · omega
        · simp [h2]
    · split
      · omega
      · split
        · omega
        · split <;> omega

/-- C1: for every batch ≥ 1 and all M, N, K ≥ 1, the tile configuration
derived by either constructor satisfies all three divisibility invariants,
so the `ConfigurationError` throw branch in each constructor is unreachable:
both constructors return `.ok`. -/
theorem c1_constructors_never_throw (batch M N K : Nat) (tA tB : Bool)
    (bias : Option TensorInfo) (act : Option Activation)
    (prelu : Option TensorInfo) (ci : Conv2DInfo) (addBias hasPrelu : Bool)
    (hb : 1 ≤ batch) (hM : 1 ≤ M) (hN : 1 ≤ N) (hK : 1 ≤ K) :
    (∃ p, MatMulLWSProgram.construct (batch, M, N) K tA tB bias act prelu
        = .ok p)
    ∧ (∃ q, Conv2DMMLWSProgram.construct ci M N K addBias act hasPrelu
        = .ok q) :=
  ⟨⟨_, mmConstruct_eq batch M N K tA tB bias act prelu hM⟩,
   ⟨_, convConstruct_eq ci M N K addBias act hasPrelu hM⟩⟩

theorem c1_constructors_never_throw_witness :
    ((1 : Nat) ≤ 1 ∧ (1 : Nat) ≤ 5 ∧ (1 : Nat) ≤ 7 ∧ (1 : Nat) ≤ 9)
    ∧ ((∃ p, MatMulLWSProgram.construct (1, 5, 7) 9 false false none none
          none = .ok p)
       ∧ (∃ q, Conv2DMMLWSProgram.construct ⟨[1, 2, 2, 7], .channelsLast⟩
          5 7 9 false none false = .ok q)) :=
  ⟨by decide,
   c1_constructors_never_throw 1 5 7 9 false false none none none
     ⟨[1, 2, 2, 7], .channelsLast⟩ false false (by decide) (by decide)
     (by decide) (by decide)⟩

/-- C5: for every positive `K`, each variant's vector-width selector
(`getMaxComponents`) returns a divisor of `K` that is maximal among its
candidate list — [4, 2, 1] for the matmul variant and [4, 3, 2, 1] for the
conv variant — returning 1 when no larger candidate divides. -/
theorem c5_vector_width_maximal_divisor (K : Nat) (hK : 1 ≤ K) :
    (MatmulLws.getMaxComponents K ∣ K
      ∧ MatmulLws.getMaxComponents K ∈ ([4, 2, 1] : List Nat)
      ∧ ∀ c ∈ ([4, 2, 1] : List Nat), c ∣ K →
          c ≤ MatmulLws.getMaxComponents K)
    ∧ (Conv2dMmLws.getMaxComponents K ∣ K
      ∧ Conv2dMmLws.getMaxComponents K ∈ ([4, 3, 2, 1] : List Nat)
      ∧ ∀ c ∈ ([4, 3, 2, 1] : List Nat), c ∣ K →
          c ≤ Conv2dMmLws.getMaxComponents K) :=
  ⟨mm_gmc_spec K, conv_gmc_spec K⟩

theorem c5_vector_width_maximal_divisor_witness :
    (1 : Nat) ≤ 12
    ∧ ((MatmulLws.getMaxComponents 12 ∣ 12
      ∧ MatmulLws.getMaxComponents 12 ∈ ([4, 2, 1] : List Nat)
      ∧ ∀ c ∈ ([4, 2, 1] : List Nat), c ∣ 12 →
          c ≤ MatmulLws.getMaxComponents 12)
    ∧ (Conv2dMmLws.getMaxComponents 12 ∣ 12
      ∧ Conv2dMmLws.getMaxComponents 12 ∈ ([4, 3, 2, 1] : List Nat)
      ∧ ∀ c ∈ ([4, 3, 2, 1] : List Nat), c ∣ 12 →
          c ≤ Conv2dMmLws.getMaxComponents 12)) :=
  ⟨by decide, c5_vector_width_maximal_divisor 12 (by decide)⟩

/-- C6: in both variants the dispatch geometry is
`(batch * ceil(M / tileM) * ceil(N / tileN), 1, 1)` — the entire workgroup
count on the X axis, with Y and Z both 1. -/
theorem c6_dispatch_geometry (batch M N K : Nat) (tA tB : Bool)
    (bias : Option TensorInfo) (act : Option Activation)
    (prelu : Option TensorInfo) (ci : Conv2DInfo) (addBias hasPrelu : Bool)
    (hM : 1 ≤ M) :
    getOr (0, 0, 0) (·.dispatch)
        (MatMulLWSProgram.construct (batch, M, N) K tA tB bias act prelu)
      = (batch * jsCeilDiv M (MatmulLws.tileM M)
          * jsCeilDiv N (MatmulLws.tileN N), 1, 1)
    ∧ getOr (0, 0, 0) (·.dispatch)
        (Conv2DMMLWSProgram.construct ci M N K addBias act hasPrelu)
      = (ci.outShape.getD 0 0 * jsCeilDiv M (Conv2dMmLws.tileM M)
          * jsCeilDiv N (Conv2dMmLws.tileN N), 1, 1) := by
  rw [mmConstruct_eq batch M N K tA tB bias act prelu hM,
    convConstruct_eq ci M N K addBias act hasPrelu hM]
  exact ⟨rfl, rfl⟩

theorem c6_dispatch_geometry_witness :
    (1 : Nat) ≤ 64
    ∧ (getOr (0, 0, 0) (·.dispatch)
        (MatMulLWSProgram.construct (2, 64, 64) 64 false false none none none)
      = (2 * jsCeilDiv 64 (MatmulLws.tileM 64)
          * jsCeilDiv 64 (MatmulLws.tileN 64), 1, 1)
    ∧ getOr (0, 0, 0) (·.dispatch)
        (Conv2DMMLWSProgram.construct ⟨[2, 8, 8, 64], .channelsLast⟩ 64 64 64
          false none false)
      = ((([2, 8, 8, 64] : List Nat).getD 0 0)
          * jsCeilDiv 64 (Conv2dMmLws.tileM 64)
          * jsCeilDiv 64 (Conv2dMmLws.tileN 64), 1, 1)) :=
  ⟨by decide,
   c6_dispatch_geometry 2 64 64 64 false false none none none
     ⟨[2, 8, 8, 64], .channelsLast⟩ false false (by decide)⟩

/-- C3 counterexample: for outputShape (1, 64, 64) and sharedDim 64, the
derived `tileK` is 16, not 32 as the claim states (`K < 32 ? K : (K > 1000 ?
32 : 16)` with K = 64 takes the 16 branch). -/
theorem c3_counterexample :
    getOr 0 (·.tileK)
        (MatMulLWSProgram.construct (1, 64, 64) 64 false false none none none)
      = 16
    ∧ (16 : Nat) ≠ 32 := by
  constructor
  · decide
  · decide

/-- C3 amended: for outputShape (1, 64, 64) and sharedDim 64 the derived
configuration is components = 4, aComponents = 4, tileM = 32, tileN = 32,
tileK = 16 (since 32 ≤ K ≤ 1000 rounds to 16; only K > 1000 yields 32),
outputNumber = 4, and the dispatch is 1*2*2 = 4 workgroups on the X axis. -/
theorem c3_amended_config_64 :
    getOr 0 (·.components)
        (MatMulLWSProgram.construct (1, 64, 64) 64 false false none none none)
      = 4
    ∧ getOr 0 (·.aComponents)
        (MatMulLWSProgram.construct (1, 64, 64) 64 false false none none none)
      = 4
    ∧ getOr 0 (·.tileM)
        (MatMulLWSProgram.construct (1, 64, 64) 64 false false none none none)
      = 32
    ∧ getOr 0 (·.tileN)
        (MatMulLWSProgram.construct (1, 64, 64) 64 false false none none none)
      = 32
    ∧ getOr 0 (·.tileK)
        (MatMulLWSProgram.construct (1, 64, 64) 64 false false none none none)
      = 16
    ∧ getOr 0 (·.outputNumber)
        (MatMulLWSProgram.construct (1, 64, 64) 64 false false none none none)
      = 4
    ∧ getOr (0, 0, 0) (·.dispatch)
        (MatMulLWSProgram.construct (1, 64, 64) 64 false false none none none)
      = (4, 1, 1) := by
  refine ⟨?_, ?_, ?_, ?_, ?_, ?_, ?_⟩ <;> decide

/-- C4 counterexample: in the conv variant with M = 9 (so tileM = 9 ≥ 4) the
derived outputNumber is 3, while the largest of [4, 2, 1] dividing 9 is 1 —
the conv variant draws outputNumber from [4, 3, 2, 1], not [4, 2, 1]. -/
theorem c4_counterexample :
    getOr 0 (·.outputNumber)
        (Conv2DMMLWSProgram.construct ⟨[1, 3, 3, 4], .channelsLast⟩ 9 4 4
          false none false)
      = 3
    ∧ getOr 0 (·.tileM)
        (Conv2DMMLWSProgram.construct ⟨[1, 3, 3, 4], .channelsLast⟩ 9 4 4
          false none false)
      = 9
    ∧ ¬ (9 : Nat) < 4
    ∧ ¬ (4 : Nat) ∣ 9
    ∧ ¬ (2 : Nat) ∣ 9
    ∧ (3 : Nat) ≠ 1 := by
  refine ⟨?_, ?_, ?_, ?_, ?_, ?_⟩ <;> decide

/-- C4 amended: in both variants `outputNumber = tileM` when `tileM < 4`;
otherwise it is the largest candidate that evenly divides `tileM`, drawn
from [4, 2, 1] in the matmul variant but from [4, 3, 2, 1] in the conv
variant. -/
theorem c4_outputNumber_rule (batch M N K : Nat) (tA tB : Bool)
    (bias : Option TensorInfo) (act : Option Activation)
    (prelu : Option TensorInfo) (ci : Conv2DInfo) (addBias hasPrelu : Bool)
    (hM : 1 ≤ M) :
    (getOr 0 (·.outputNumber)
        (MatMulLWSProgram.construct (batch, M, N) K tA tB bias act prelu)
      = if MatmulLws.tileM M < 4 then MatmulLws.tileM M
        else MatmulLws.getMaxComponents (MatmulLws.tileM M))
    ∧ (MatmulLws.getMaxComponents (MatmulLws.tileM M) ∣ MatmulLws.tileM M
      ∧ ∀ c ∈ ([4, 2, 1] : List Nat), c ∣ MatmulLws.tileM M →
          c ≤ MatmulLws.getMaxComponents (MatmulLws.tileM M))
    ∧ (getOr 0 (·.outputNumber)
        (Conv2DMMLWSProgram.construct ci M N K addBias act hasPrelu)
      = if Conv2dMmLws.tileM M < 4 then Conv2dMmLws.tileM M
        else Conv2dMmLws.getMaxComponents (Conv2dMmLws.tileM M))
    ∧ (Conv2dMmLws.getMaxComponents (Conv2dMmLws.tileM M) ∣ Conv2dMmLws.tileM M
      ∧ ∀ c ∈ ([4, 3, 2, 1] : List Nat), c ∣ Conv2dMmLws.tileM M →
          c ≤ Conv2dMmLws.getMaxComponents (Conv2dMmLws.tileM M)) := by
  refine ⟨?_, ⟨(mm_gmc_spec _).1, (mm_gmc_spec _).2.2⟩, ?_,
    ⟨(conv_gmc_spec _).1, (conv_gmc_spec _).2.2⟩⟩
  · rw [mmConstruct_eq batch M N K tA tB bias act prelu hM]
    rfl
  · rw [convConstruct_eq ci M N K addBias act hasPrelu hM]
    rfl

theorem c4_outputNumber_rule_witness :
    (1 : Nat) ≤ 9
    ∧ ((getOr 0 (·.outputNumber)
        (MatMulLWSProgram.construct (1, 9, 4) 4 false false none none none)
      = if MatmulLws.tileM 9 < 4 then MatmulLws.tileM 9
        else MatmulLws.getMaxComponents (MatmulLws.tileM 9))
    ∧ (MatmulLws.getMaxComponents (MatmulLws.tileM 9) ∣ MatmulLws.tileM 9
      ∧ ∀ c ∈ ([4, 2, 1] : List Nat), c ∣ MatmulLws.tileM 9 →
          c ≤ MatmulLws.getMaxComponents (MatmulLws.tileM 9))
    ∧ (getOr 0 (·.outputNumber)
        (Conv2DMMLWSProgram.construct ⟨[1, 3, 3, 4], .channelsLast⟩ 9 4 4
          false none false)
      = if Conv2dMmLws.tileM 9 < 4 then Conv2dMmLws.tileM 9
        else Conv2dMmLws.getMaxComponents (Conv2dMmLws.tileM 9))
    ∧ (Conv2dMmLws.getMaxComponents (Conv2dMmLws.tileM 9) ∣ Conv2dMmLws.tileM 9
      ∧ ∀ c ∈ ([4, 3, 2, 1] : List Nat), c ∣ Conv2dMmLws.tileM 9 →
          c ≤ Conv2dMmLws.getMaxComponents (Conv2dMmLws.tileM 9))) :=
  ⟨by decide,
   c4_outputNumber_rule 1 9 4 4 false false none none none
     ⟨[1, 3, 3, 4], .channelsLast⟩ false false (by decide)⟩

/-- C7 (spec-modelled): a structurally inconsistent epilogue combination —
PReLU activation weights supplied while no activation is selected — is
rejected at generation time with an error instead of producing kernel text,
in both variants. -/
theorem c7_inconsistent_epilogue_rejected (batch M N K : Nat) (tA tB : Bool)
    (bias : Option TensorInfo) (w : TensorInfo) (ci : Conv2DInfo)
    (addBias : Bool) (hM : 1 ≤ M) :
    mmGeneratedResult (MatMulLWSProgram.construct (batch, M, N) K tA tB bias
        none (some w))
      = .error (lc "Unsupported epilogue combination: PReLU activation weights without an activation")
    ∧ convGeneratedResult (Conv2DMMLWSProgram.construct ci M N K addBias none
        true)
      = .error (lc "Unsupported epilogue combination: PReLU activation weights without an activation") := by
  rw [mmConstruct_eq batch M N K tA tB bias none (some w) hM,
    convConstruct_eq ci M N K addBias none true hM]
  exact ⟨rfl, rfl⟩

theorem c7_inconsistent_epilogue_rejected_witness :
    (1 : Nat) ≤ 8
    ∧ (mmGeneratedResult (MatMulLWSProgram.construct (1, 8, 8) 8 false false
        none none (some ⟨[]⟩))
      = .error (lc "Unsupported epilogue combination: PReLU activation weights without an activation")
    ∧ convGeneratedResult (Conv2DMMLWSProgram.construct
        ⟨[1, 2, 4, 8], .channelsLast⟩ 8 8 8 false none true)
      = .error (lc "Unsupported epilogue combination: PReLU activation weights without an activation")) :=
  ⟨by decide,
   c7_inconsistent_epilogue_rejected 1 8 8 8 false false none ⟨[]⟩
     ⟨[1, 2, 4, 8], .channelsLast⟩ false (by decide)⟩

theorem mmShaderKey_injective {a1 a2 : Option Activation}
    {tA1 tB1 fA1 fB1 fI1 tA2 tB2 fA2 fB2 fI2 : Bool}
    {tK1 tM1 tN1 c1 ac1 on1 tK2 tM2 tN2 c2 ac2 on2 : Nat}
    (h : mmShaderKey a1 tA1 tB1 fA1 fB1 fI1 tK1 tM1 tN1 c1 ac1 on1
       = mmShaderKey a2 tA2 tB2 fA2 fB2 fI2 tK2 tM2 tN2 c2 ac2 on2) :
    a1 = a2 ∧ tA1 = tA2 ∧ tB1 = tB2 ∧ fA1 = fA2 ∧ fB1 = fB2 ∧ fI1 = fI2
    ∧ tK1 = tK2 ∧ tM1 = tM2 ∧ tN1 = tN2 ∧ c1 = c2 ∧ ac1 = ac2
    ∧ on1 = on2 := by
  have hsep : ∀ x : List Char, lc "_" ++ x = '_' :: x := fun _ => rfl
  unfold mmShaderKey at h
  simp only [List.append_assoc, hsep] at h
  replace h := List.append_cancel_left h
  obtain ⟨hA, h⟩ := append_sep_inj (underscore_notin_activationChars a1)
    (underscore_notin_activationChars a2) h
  obtain ⟨hTA, h⟩ := append_sep_inj (underscore_notin_boolChars tA1)
    (underscore_notin_boolChars tA2) h
  obtain ⟨hTB, h⟩ := append_sep_inj (underscore_notin_boolChars tB1)
    (underscore_notin_boolChars tB2) h
  obtain ⟨hFA, h⟩ := append_sep_inj (underscore_notin_boolChars fA1)
    (underscore_notin_boolChars fA2) h
  obtain ⟨hFB, h⟩ := append_sep_inj (underscore_notin_boolChars fB1)
    (underscore_notin_boolChars fB2) h
  obtain ⟨hFI, h⟩ := append_sep_inj (underscore_notin_boolChars fI1)
    (underscore_notin_boolChars fI2) h
  obtain ⟨hTK, h⟩ := append_sep_inj (underscore_notin_natChars tK1)
    (underscore_notin_natChars tK2) h
  obtain ⟨hTM, h⟩ := append_sep_inj (underscore_notin_natChars tM1)
    (underscore_notin_natChars tM2) h
  obtain ⟨hTN, h⟩ := append_sep_inj (underscore_notin_natChars tN1)
    (underscore_notin_natChars tN2) h
  obtain ⟨hC, h⟩ := append_sep_inj (underscore_notin_natChars c1)
    (underscore_notin_natChars c2) h
  obtain ⟨hAC, h⟩ := append_sep_inj (underscore_notin_natChars ac1)
    (underscore_notin_natChars ac2) h
  exact ⟨activationChars_injective hA, boolChars_injective hTA,
    boolChars_injective hTB, boolChars_injective hFA, boolChars_injective hFB,
    boolChars_injective hFI, natChars_injective hTK, natChars_injective hTM,
    natChars_injective hTN, natChars_injective hC, natChars_injective hAC,
    natChars_injective h⟩

theorem convShaderKey_injective {a1 a2 : Option Activation}
    {fA1 fB1 fI1 fA2 fB2 fI2 : Bool}
    {tK1 tM1 tN1 c1 ac1 on1 tK2 tM2 tN2 c2 ac2 on2 : Nat}
    (h : convShaderKey a1 fA1 fB1 fI1 tK1 tM1 tN1 c1 ac1 on1
       = convShaderKey a2 fA2 fB2 fI2 tK2 tM2 tN2 c2 ac2 on2) :
    a1 = a2 ∧ fA1 = fA2 ∧ fB1 = fB2 ∧ fI1 = fI2
    ∧ tK1 = tK2 ∧ tM1 = tM2 ∧ tN1 = tN2 ∧ c1 = c2 ∧ ac1 = ac2
    ∧ on1 = on2 := by
  have hsep : ∀ x : List Char, lc "_" ++ x = '_' :: x := fun _ => rfl
  have hsep2 : ∀ x : List Char, lc "\x7d_" ++ x = '}' :: '_' :: x :=
    fun _ => rfl
  unfold convShaderKey at h
  simp only [List.append_assoc, hsep, hsep2] at h
  replace h := List.append_cancel_left h
  obtain ⟨hA, h⟩ := append_sep_inj (rbrace_notin_activationChars a1)
    (rbrace_notin_activationChars a2) h
  replace h := List.cons_injective h
  obtain ⟨hFA, h⟩ := append_sep_inj (underscore_notin_boolChars fA1)
    (underscore_notin_boolChars fA2) h
  obtain ⟨hFB, h⟩ := append_sep_inj (underscore_notin_boolChars fB1)
    (underscore_notin_boolChars fB2) h
  obtain ⟨hFI, h⟩ := append_sep_inj (underscore_notin_boolChars fI1)
    (underscore_notin_boolChars fI2) h
  obtain ⟨hTK, h⟩ := append_sep_inj (underscore_notin_natChars tK1)
    (underscore_notin_natChars tK2) h
  obtain ⟨hTM, h⟩ := append_sep_inj (underscore_notin_natChars tM1)
    (underscore_notin_natChars tM2) h
  obtain ⟨hTN, h⟩ := append_sep_inj (underscore_notin_natChars tN1)
    (underscore_notin_natChars tN2) h
  obtain ⟨hC, h⟩ := append_sep_inj (underscore_notin_natChars c1)
    (underscore_notin_natChars c2) h
  obtain ⟨hAC, h⟩ := append_sep_inj (underscore_notin_natChars ac1)
    (underscore_notin_natChars ac2) h
  exact ⟨activationChars_injective hA, boolChars_injective hFA,
    boolChars_injective hFB, boolChars_injective hFI, natChars_injective hTK,
    natChars_injective hTM, natChars_injective hTN, natChars_injective hC,
    natChars_injective hAC, natChars_injective h⟩

/-- C2 counterexample: two matmul generation requests that differ only in
bias presence — a field that changes the emitted kernel text — produce the
very same ShaderKey, and their generated texts differ; so identical keys do
not guarantee byte-identical text, and text-affecting parameters are not all
serialized into the key. -/
theorem c2_counterexample :
    getOr [] (·.shaderKey)
        (MatMulLWSProgram.construct (1, 32, 32) 32 false false none none none)
      = getOr [] (·.shaderKey)
        (MatMulLWSProgram.construct (1, 32, 32) 32 false false (some ⟨[]⟩)
          none none)
    ∧ mmGeneratedResult
        (MatMulLWSProgram.construct (1, 32, 32) 32 false false none none none)
      ≠ mmGeneratedResult
        (MatMulLWSProgram.construct (1, 32, 32) 32 false false (some ⟨[]⟩)
          none none) := by
  constructor
  · decide
  · decide

/-- C2 amended: the ShaderKey is a deterministic, injective serialization of
activation, transpose flags (matmul), fit flags and the tile configuration;
two requests agreeing on the key therefore agree on all those fields, and if
they moreover agree on the epilogue-presence flags (bias, PReLU weights; and
the layout flag for the conv variant) — which the key does NOT capture —
they produce identical kernel text. -/
theorem c2_amended_shader_key_contract
    (b1 M1 N1 K1 b2 M2 N2 K2 : Nat) (tA1 tB1 tA2 tB2 : Bool)
    (bias1 bias2 pw1 pw2 : Option TensorInfo) (act1 act2 : Option Activation)
    (ci1 ci2 : Conv2DInfo) (Mc1 Nc1 Kc1 Mc2 Nc2 Kc2 : Nat)
    (aB1 aB2 hP1 hP2 : Bool) (ca1 ca2 : Option Activation)
    (hM1 : 1 ≤ M1) (hM2 : 1 ≤ M2) (hMc1 : 1 ≤ Mc1) (hMc2 : 1 ≤ Mc2)
    (hkey : getOr [] (·.shaderKey)
        (MatMulLWSProgram.construct (b1, M1, N1) K1 tA1 tB1 bias1 act1 pw1)
      = getOr [] (·.shaderKey)
        (MatMulLWSProgram.construct (b2, M2, N2) K2 tA2 tB2 bias2 act2 pw2))
    (hkeyc : getOr [] (·.shaderKey)
        (Conv2DMMLWSProgram.construct ci1 Mc1 Nc1 Kc1 aB1 ca1 hP1)
      = getOr [] (·.shaderKey)
        (Conv2DMMLWSProgram.construct ci2 Mc2 Nc2 Kc2 aB2 ca2 hP2)) :
    (act1 = act2 ∧ tA1 = tA2 ∧ tB1 = tB2
      ∧ MatmulLws.tileK K1 = MatmulLws.tileK K2
      ∧ MatmulLws.tileM M1 = MatmulLws.tileM M2
      ∧ MatmulLws.tileN N1 = MatmulLws.tileN N2
      ∧ MatmulLws.components N1 = MatmulLws.components N2
      ∧ MatmulLws.getMaxComponents K1 = MatmulLws.getMaxComponents K2
      ∧ MatmulLws.outputNumber M1 = MatmulLws.outputNumber M2)
    ∧ (bias1.isSome = bias2.isSome → pw1.isSome = pw2.isSome →
        mmGeneratedResult
          (MatMulLWSProgram.construct (b1, M1, N1) K1 tA1 tB1 bias1 act1 pw1)
        = mmGeneratedResult
          (MatMulLWSProgram.construct (b2, M2, N2) K2 tA2 tB2 bias2 act2 pw2))
    ∧ (ca1 = ca2
      ∧ Conv2dMmLws.tileK Kc1 = Conv2dMmLws.tileK Kc2
      ∧ Conv2dMmLws.tileM Mc1 = Conv2dMmLws.tileM Mc2
      ∧ Conv2dMmLws.tileN Nc1 = Conv2dMmLws.tileN Nc2
      ∧ Conv2dMmLws.components Nc1 = Conv2dMmLws.components Nc2
      ∧ Conv2dMmLws.getMaxComponents Kc1 = Conv2dMmLws.getMaxComponents Kc2
      ∧ Conv2dMmLws.outputNumber Mc1 = Conv2dMmLws.outputNumber Mc2)
    ∧ (aB1 = aB2 → hP1 = hP2 →
        (ci1.dataFormat == DataFormat.channelsLast)
          = (ci2.dataFormat == DataFormat.channelsLast) →
        convGeneratedResult
          (Conv2DMMLWSProgram.construct ci1 Mc1 Nc1 Kc1 aB1 ca1 hP1)
        = convGeneratedResult
          (Conv2DMMLWSProgram.construct ci2 Mc2 Nc2 Kc2 aB2 ca2 hP2)) := by
  rw [mmConstruct_eq b1 M1 N1 K1 tA1 tB1 bias1 act1 pw1 hM1,
    mmConstruct_eq b2 M2 N2 K2 tA2 tB2 bias2 act2 pw2 hM2] at hkey ⊢
  rw [convConstruct_eq ci1 Mc1 Nc1 Kc1 aB1 ca1 hP1 hMc1,
    convConstruct_eq ci2 Mc2 Nc2 Kc2 aB2 ca2 hP2 hMc2] at hkeyc ⊢
  obtain ⟨hA, hTA, hTB, hFA, hFB, hFI, hTK, hTM, hTN, hC, hAC, hON⟩ :=
    mmShaderKey_injective hkey
  obtain ⟨hA', hFA', hFB', hFI', hTK', hTM', hTN', hC', hAC', hON'⟩ :=
    convShaderKey_injective hkeyc
  refine ⟨⟨hA, hTA, hTB, hTK, hTM, hTN, hC, hAC, hON⟩, ?_,
    ⟨hA', hTK', hTM', hTN', hC', hAC', hON'⟩, ?_⟩
  · intro hbias hpw
    show MatMulLWSProgram.getUserCode _ = MatMulLWSProgram.getUserCode _
    unfold MatMulLWSProgram.getUserCode
    simp only
    rw [hA, hTA, hTB, hFA, hFB, hFI, hTK, hTM, hTN, hC, hAC, hON, hbias, hpw]
  · intro haB hhP hcl
    show Conv2DMMLWSProgram.getUserCode _ = Conv2DMMLWSProgram.getUserCode _
    unfold Conv2DMMLWSProgram.getUserCode
    simp only
    rw [hA', hFA', hFB', hFI', hTK', hTM', hTN', hC', hAC', hON', haB, hhP,
      hcl]

theorem c2_amended_shader_key_contract_witness :
    ((1 : Nat) ≤ 8 ∧ (1 : Nat) ≤ 8 ∧ (1 : Nat) ≤ 8 ∧ (1 : Nat) ≤ 8
     ∧ getOr [] (·.shaderKey)
         (MatMulLWSProgram.construct (1, 8, 8) 8 false false none none none)
       = getOr [] (·.shaderKey)
         (MatMulLWSProgram.construct (1, 8, 8) 8 false false none none none)
     ∧ getOr [] (·.shaderKey)
         (Conv2DMMLWSProgram.construct ⟨[1, 2, 2, 4], .channelsLast⟩ 8 4 4
           false none false)
       = getOr [] (·.shaderKey)
         (Conv2DMMLWSProgram.construct ⟨[1, 2, 2, 4], .channelsLast⟩ 8 4 4
           false none false))
    ∧ ((none = (none : Option Activation) ∧ false = false ∧ false = false
      ∧ MatmulLws.tileK 8 = MatmulLws.tileK 8
      ∧ MatmulLws.tileM 8 = MatmulLws.tileM 8
      ∧ MatmulLws.tileN 8 = MatmulLws.tileN 8
      ∧ MatmulLws.components 8 = MatmulLws.components 8
      ∧ MatmulLws.getMaxComponents 8 = MatmulLws.getMaxComponents 8
      ∧ MatmulLws.outputNumber 8 = MatmulLws.outputNumber 8)
    ∧ ((none : Option TensorInfo).isSome = (none : Option TensorInfo).isSome →
        (none : Option TensorInfo).isSome = (none : Option TensorInfo).isSome →
        mmGeneratedResult
          (MatMulLWSProgram.construct (1, 8, 8) 8 false false none none none)
        = mmGeneratedResult
          (MatMulLWSProgram.construct (1, 8, 8) 8 false false none none none))
    ∧ (none = (none : Option Activation)
      ∧ Conv2dMmLws.tileK 4 = Conv2dMmLws.tileK 4
      ∧ Conv2dMmLws.tileM 8 = Conv2dMmLws.tileM 8
      ∧ Conv2dMmLws.tileN 4 = Conv2dMmLws.tileN 4
      ∧ Conv2dMmLws.components 4 = Conv2dMmLws.components 4
      ∧ Conv2dMmLws.getMaxComponents 4 = Conv2dMmLws.getMaxComponents 4
      ∧ Conv2dMmLws.outputNumber 8 = Conv2dMmLws.outputNumber 8)
    ∧ (false = false → false = false →
        ((Conv2DInfo.mk [1, 2, 2, 4] .channelsLast).dataFormat
            == DataFormat.channelsLast)
          = ((Conv2DInfo.mk [1, 2, 2, 4] .channelsLast).dataFormat
            == DataFormat.channelsLast) →
        convGeneratedResult
          (Conv2DMMLWSProgram.construct ⟨[1, 2, 2, 4], .channelsLast⟩ 8 4 4
            false none false)
        = convGeneratedResult
          (Conv2DMMLWSProgram.construct ⟨[1, 2, 2, 4], .channelsLast⟩ 8 4 4
            false none false))) :=
  ⟨⟨by decide, by decide, by decide, by decide, rfl, rfl⟩,
   c2_amended_shader_key_contract 1 8 8 8 1 8 8 8 false false false false
     none none none none none none ⟨[1, 2, 2, 4], .channelsLast⟩
     ⟨[1, 2, 2, 4], .channelsLast⟩ 8 4 4 8 4 4 false false false false none
     none (by decide) (by decide) (by decide) (by decide) rfl rfl⟩

theorem infix_append_left {l a b : List Char} (h : l <:+: b) :
    l <:+: a ++ b := by
  obtain ⟨s, t, hst⟩ := h
  exact ⟨a ++ s, t, by rw [← hst]; simp⟩

theorem infix_append_right {l a b : List Char} (h : l <:+: a) :
    l <:+: a ++ b := by
  obtain ⟨s, t, hst⟩ := h
  exact ⟨s, t ++ b, by rw [← hst]; simp⟩

/-- A needle occurring inside one literal fragment occurs in the rendered
text. -/
theorem infix_renderFrags_of_mem {needle L : List Char} {fs : List Frag}
    (hmem : Frag.lit L ∈ fs) (h : needle <:+: L) :
    needle <:+: renderFrags fs := by
  induction fs with
  | nil => simp at hmem
  | cons f fs ih =>
    rw [renderFrags_cons]
    rcases List.mem_cons.mp hmem with heq | hmem'
    · rw [← heq]
      exact infix_append_right (by simpa [Frag.render] using h)
    · exact infix_append_left (ih hmem')

/-- A fragment sublist renders to an infix of the full rendered text. -/
theorem infix_renderFrags_of_sub {needle : List Char} {fs' fs : List Frag}
    (hsub : fs' <:+: fs) (h : needle <:+: renderFrags fs') :
    needle <:+: renderFrags fs := by
  obtain ⟨x, y, hxy⟩ := hsub
  rw [← hxy, renderFrags_append, renderFrags_append]
  exact infix_append_right (infix_append_left h)

/-- The batch-index fragment sublist sits inside the full fragment list. -/
theorem lwsBatch_sub (ws on_ c ac tM tN tK : Nat) (isConv : Bool) :
    lwsBatch isConv <:+: lwsFrags ws on_ c ac tM tN tK isConv :=
  ⟨lwsDeclA ac tM tK ++ lwsDeclB c tN tK ++ lwsHeadPre tM tN,
   lwsHeadPost ws on_ c ac tM tN tK ++ [lwsBarrierFrag]
     ++ lwsCompute ws on_ c ac tM tN tK ++ [lwsBarrierFrag]
     ++ lwsTail ws on_ c tM tN,
   by simp [lwsFrags, lwsHead, List.append_assoc]⟩

/-- C10: the emitted kernel text derives the operand batch indices per
variant: the convolution variant (isConv) uses the recovered batch index
unchanged for A and the constant 0 for B, while the plain matmul variant
takes the recovered batch index modulo each input's batch dimension
(aShape[0], bShape[0]), implementing batch broadcasting. -/
theorem c10_batch_index_per_variant (ws on_ c ac tM tN tK : Nat) :
    (∃ pre post, makeMatMulLWSSource ws on_ c ac tM tN tK true
      = pre ++ lc "let batchA = i32(batch);
    let batchB = 0i;" ++ post)
    ∧ (∃ pre post, makeMatMulLWSSource ws on_ c ac tM tN tK false
      = pre ++ lc "let batchA = i32(batch) % uniforms.aShape[0];
    let batchB = i32(batch) % uniforms.bShape[0];" ++ post) := by
  constructor
  · have h : lc "let batchA = i32(batch);
    let batchB = 0i;" <:+: renderFrags (lwsBatch true) := by decide
    obtain ⟨s, t, hst⟩ :=
      infix_renderFrags_of_sub (lwsBatch_sub ws on_ c ac tM tN tK true) h
    exact ⟨s, t, by rw [makeMatMulLWSSource, ← hst]⟩
  · have h : lc "let batchA = i32(batch) % uniforms.aShape[0];
    let batchB = i32(batch) % uniforms.bShape[0];"
        <:+: renderFrags (lwsBatch false) := by decide
    obtain ⟨s, t, hst⟩ :=
      infix_renderFrags_of_sub (lwsBatch_sub ws on_ c ac tM tN tK false) h
    exact ⟨s, t, by rw [makeMatMulLWSSource, ← hst]⟩

theorem renderFrags_lwsDeclA (ac tM tK : Nat) :
    renderFrags (lwsDeclA ac tM tK)
      = lc "\n  var<workgroup> mm_Asub: array<array<" ++ typeSnippet ac
        ++ lc ", " ++ natChars (tK / ac) ++ lc ">, " ++ natChars tM
        ++ lc ">;" := by
  simp [renderFrags, lwsDeclA, Frag.render, List.append_assoc]

/-- C9: in the conv variant, when the derived aComponents is 3 the declared
vector width for the first operand (variableComponents[0]) is coerced to 1,
while the mm_Asub declaration in the emitted kernel text is still sized by
the true aComponents — 3-wide vectors, tileK/3 columns, tileM rows; for any
other aComponents the declared width equals aComponents. -/
theorem c9_conv_acomponents3_asymmetry (ci : Conv2DInfo) (M N K : Nat)
    (aB : Bool) (act : Option Activation) (hP : Bool)
    (q : Conv2DMMLWSProgram) (text : List Char) (hM : 1 ≤ M)
    (hq : Conv2DMMLWSProgram.construct ci M N K aB act hP = .ok q)
    (htext : q.getUserCode = .ok text) :
    (q.aComponents = 3 →
      q.variableComponents.head? = some 1
      ∧ typeSnippet 3 = lc "vec3<f32>"
      ∧ (lc "\n  var<workgroup> mm_Asub: array<array<" ++ typeSnippet 3
          ++ lc ", " ++ natChars (q.tileK / 3) ++ lc ">, "
          ++ natChars q.tileM ++ lc ">;") <:+: text)
    ∧ (q.aComponents ≠ 3 →
        q.variableComponents.head? = some q.aComponents) := by
  rw [convConstruct_eq ci M N K aB act hP hM] at hq
  cases hq
  constructor
  · intro h3
    have h3' : Conv2dMmLws.getMaxComponents K = 3 := h3
    refine ⟨by simp [h3'], rfl, ?_⟩
    unfold Conv2DMMLWSProgram.getUserCode at htext
    split at htext
    · exact absurd htext (by simp)
    · have htext' := htext
      injection htext' with htxt
      rw [← htxt]
      have hpref : (lc "\n  var<workgroup> mm_Asub: array<array<"
          ++ typeSnippet 3 ++ lc ", "
          ++ natChars (Conv2dMmLws.tileK K / 3) ++ lc ">, "
          ++ natChars (Conv2dMmLws.tileM M) ++ lc ">;")
          <+: makeMatMulLWSSource 64 (Conv2dMmLws.outputNumber M)
            (Conv2dMmLws.components N) 3 (Conv2dMmLws.tileM M)
            (Conv2dMmLws.tileN N) (Conv2dMmLws.tileK K) true := by
        rw [← renderFrags_lwsDeclA 3 (Conv2dMmLws.tileM M)
            (Conv2dMmLws.tileK K),
          makeMatMulLWSSource, lwsFrags]
        simp only [renderFrags_append, List.append_assoc]
        exact List.prefix_append _ _
      show _ <:+: _
      simp only [h3']
      exact infix_append_right (infix_append_left hpref.isInfix)
  · intro h3
    have h3' : Conv2dMmLws.getMaxComponents K ≠ 3 := h3
    show (([if Conv2dMmLws.getMaxComponents K = 3 then 1
        else Conv2dMmLws.getMaxComponents K, Conv2dMmLws.components N]
        ++ _) ++ _).head? = _
    simp [h3']

theorem c9_conv_acomponents3_asymmetry_witness :
    ((1 : Nat) ≤ 8
     ∧ Conv2DMMLWSProgram.construct ⟨[1, 2, 2, 4], .channelsLast⟩ 8 4 6 false
         none false = .ok convSample
     ∧ convSample.getUserCode = .ok convSampleText)
    ∧ ((convSample.aComponents = 3 →
          convSample.variableComponents.head? = some 1
          ∧ typeSnippet 3 = lc "vec3<f32>"
          ∧ (lc "\n  var<workgroup> mm_Asub: array<array<" ++ typeSnippet 3
              ++ lc ", " ++ natChars (convSample.tileK / 3) ++ lc ">, "
              ++ natChars convSample.tileM ++ lc ">;") <:+: convSampleText)
       ∧ (convSample.aComponents ≠ 3 →
          convSample.variableComponents.head? = some convSample.aComponents)) :=
  ⟨⟨by decide, by decide, rfl⟩,
   c9_conv_acomponents3_asymmetry ⟨[1, 2, 2, 4], .channelsLast⟩ 8 4 6 false
     none false convSample convSampleText (by decide) (by decide) rfl⟩

theorem renderFrags_lwsDeclB (c tN tK : Nat) :
    renderFrags (lwsDeclB c tN tK)
      = lc "\n  var<workgroup> mm_Bsub: array<array<" ++ typeSnippet c
        ++ lc ", " ++ natChars (tN / c) ++ lc ">, " ++ natChars tK
        ++ lc ">;" := by
  simp [renderFrags, lwsDeclB, Frag.render, List.append_assoc]

theorem renderFrags_barrier :
    renderFrags [lwsBarrierFrag] = lc "workgroupBarrier();" := rfl

theorem sumOcc_append (p : List Char) (a b : List Frag) :
    sumOcc p (a ++ b) = sumOcc p a + sumOcc p b := by
  simp [sumOcc]

theorem sumOcc_flatMap_zero {p : List Char} {f : Nat → List Frag}
    (h : ∀ i, sumOcc p (f i) = 0) :
    ∀ xs : List Nat, sumOcc p (xs.flatMap f) = 0
  | [] => rfl
  | x :: xs => by
    rw [List.flatMap_cons, sumOcc_append, h x, sumOcc_flatMap_zero h xs]

/-- Master counting theorem restated through `sumOcc`. -/
theorem occ_renderFrags_sum {p : List Char} (hp : PatOk p) {fs : List Frag}
    (hne : fs.all Frag.neB = true) (hch : chainOk p fs = true) :
    occ p (renderFrags fs) = sumOcc p fs :=
  occ_renderFrags hp hne hch

theorem head?_flatMap_mem {f : Nat → List Frag} {H : Frag}
    (hH : ∀ i, (f i).head? = some H) :
    ∀ xs : List Nat, ∀ y ∈ (xs.flatMap f).head?, y = H
  | [] => by intro y hy; simp at hy
  | x :: xs => by
    intro y hy
    rw [List.flatMap_cons, List.head?_append, hH x] at hy
    simp [Option.or] at hy
    exact hy.symm

theorem getLast?_flatMap_mem {f : Nat → List Frag} {P : Frag → Prop}
    (hL : ∀ i, ∀ a ∈ (f i).getLast?, P a) :
    ∀ xs : List Nat, ∀ y ∈ (xs.flatMap f).getLast?, P y
  | [] => by intro y hy; simp at hy
  | x :: xs => by
    intro y hy
    rw [List.flatMap_cons, List.getLast?_append] at hy
    rcases htail : (xs.flatMap f).getLast? with - | z
    · rw [htail] at hy
      exact hL x y hy
    · rw [htail] at hy
      simp at hy
      rw [← hy]
      exact getLast?_flatMap_mem hL xs z (htail ▸ rfl)

theorem chainOk_flatMap {p : List Char} {f : Nat → List Frag} {H : Frag}
    (hch : ∀ i, chainOk p (f i) = true)
    (hH : ∀ i, (f i).head? = some H)
    (hsep : ∀ i, ∀ a ∈ (f i).getLast?, sepOk p a H = true) :
    ∀ xs : List Nat, chainOk p (xs.flatMap f) = true
  | [] => rfl
  | x :: xs => by
    rw [List.flatMap_cons]
    refine chainOk_append (hch x) (chainOk_flatMap hch hH hsep xs) ?_
    intro a ha b hb
    rw [head?_flatMap_mem hH xs b hb]
    exact hsep x a ha

theorem all_neB_flatMap {f : Nat → List Frag}
    (h : ∀ i, (f i).all Frag.neB = true) :
    ∀ xs : List Nat, (xs.flatMap f).all Frag.neB = true
  | [] => rfl
  | x :: xs => by
    rw [List.flatMap_cons]
    exact frags_all_neB_append (h x) (all_neB_flatMap h xs)

theorem getLast?_append_cases {α : Type} {a b : List α} {x : α}
    (hx : x ∈ (a ++ b).getLast?) : x ∈ a.getLast? ∨ x ∈ b.getLast? := by
  rw [List.getLast?_append] at hx
  rcases hb : b.getLast? with - | z
  · rw [hb] at hx
    exact Or.inl hx
  · rw [hb] at hx
    exact Or.inr hx

theorem sep_boundary {p : List Char} {a b : List Frag} {f₀ g₀ : Frag}
    (ha : a.getLast? = some f₀) (hb : b.head? = some g₀)
    (hs : sepOk p f₀ g₀ = true) :
    ∀ f ∈ a.getLast?, ∀ g ∈ b.head?, sepOk p f g = true := by
  intro f hf g hg
  rw [ha] at hf
  rw [hb] at hg
  simp at hf hg
  subst hf
  subst hg
  exact hs

theorem sep_last_all {p : List Char} {l : List Frag} {f₀ H : Frag}
    (hl : l.getLast? = some f₀) (hs : sepOk p f₀ H = true) :
    ∀ a ∈ l.getLast?, sepOk p a H = true := by
  intro a ha
  rw [hl] at ha
  simp at ha
  subst ha
  exact hs

theorem sep_last_append {p : List Char} {a b : List Frag} {H : Frag}
    (ha : ∀ x ∈ a.getLast?, sepOk p x H = true)
    (hb : ∀ x ∈ b.getLast?, sepOk p x H = true) :
    ∀ x ∈ (a ++ b).getLast?, sepOk p x H = true :=
  fun x hx => (getLast?_append_cases hx).elim (ha x) (hb x)

theorem sep_boundary_of_last {p : List Char} {a b : List Frag} {g₀ : Frag}
    (hb : b.head? = some g₀)
    (ha : ∀ x ∈ a.getLast?, sepOk p x g₀ = true) :
    ∀ f ∈ a.getLast?, ∀ g ∈ b.head?, sepOk p f g = true := by
  intro f hf g hg
  rw [hb] at hg
  simp at hg
  subst hg
  exact ha f hf

theorem sep_boundary_flat {p : List Char} {a : List Frag} {f₀ H : Frag}
    {f : Nat → List Frag}
    (ha : a.getLast? = some f₀) (hH : ∀ i, (f i).head? = some H)
    (hs : sepOk p f₀ H = true) (xs : List Nat) :
    ∀ x ∈ a.getLast?, ∀ y ∈ (xs.flatMap f).head?, sepOk p x y = true := by
  intro x hx y hy
  rw [ha] at hx
  simp at hx
  subst hx
  rw [head?_flatMap_mem hH xs y hy]
  exact hs

theorem occ_typeSnippet_cases {p : List Char}
    (h1 : occ p (lc "f32") = 0) (h2 : occ p (lc "vec2<f32>") = 0)
    (h3 : occ p (lc "vec3<f32>") = 0) (h4 : occ p (lc "vec4<f32>") = 0) :
    ∀ comp, occ p (typeSnippet comp) = 0 := by
  intro comp
  unfold typeSnippet
  split
  · exact h1
  · split
    · exact h2
    · split
      · exact h3
      · exact h4

theorem occ_batchA_cases {p : List Char}
    (h1 : occ p (lc "i32(batch)") = 0)
    (h2 : occ p (lc "i32(batch) % uniforms.aShape[0]") = 0) :
    ∀ b, occ p ((Frag.batchA b).render) = 0 := by
  intro b
  cases b
  · exact h2
  · exact h1

theorem occ_batchB_cases {p : List Char}
    (h1 : occ p (lc "0i") = 0)
    (h2 : occ p (lc "i32(batch) % uniforms.bShape[0]") = 0) :
    ∀ b, occ p ((Frag.batchB b).render) = 0 := by
  intro b
  cases b
  · exact h2
  · exact h1

theorem patOk_vw : PatOk vwPat :=
  ⟨by decide, by decide,
   occ_typeSnippet_cases (by decide) (by decide) (by decide) (by decide),
   occ_batchA_cases (by decide) (by decide),
   occ_batchB_cases (by decide) (by decide)⟩

theorem patOk_wb : PatOk wbPat :=
  ⟨by decide, by decide,
   occ_typeSnippet_cases (by decide) (by decide) (by decide) (by decide),
   occ_batchA_cases (by decide) (by decide),
   occ_batchB_cases (by decide) (by decide)⟩

theorem hd_bData : ∀ i, (bDataFrags i).head? = some bDataHeadFrag :=
  fun _ => rfl

theorem ls_bData : ∀ i, (bDataFrags i).getLast? = some bDataLastFrag :=
  fun _ => rfl

theorem hd_j (c ac i : Nat) :
    ∀ j, (jFrags c ac i j).head? = some jHeadFrag := by
  intro j
  unfold jFrags
  split
  · rfl
  · rfl

theorem ls_j (c ac i : Nat) :
    ∀ j, (jFrags c ac i j).getLast? = some jLastFrag := by
  intro j
  unfold jFrags
  split
  · rfl
  · rfl

/-- The last fragment of an unrolled output row satisfies a given separation
condition, provided both candidate last fragments do. -/
theorem sep_i_last_gen {p : List Char} {H : Frag} (c ac i : Nat)
    (h1 : sepOk p (Frag.lit (lc "];")) H = true)
    (h2 : sepOk p jLastFrag H = true) :
    ∀ a ∈ (iFrags c ac i).getLast?, sepOk p a H = true := by
  unfold iFrags
  exact sep_last_append (sep_last_all rfl h1)
    (getLast?_flatMap_mem (fun j => sep_last_all (ls_j c ac i j) h2) _)

/-- The last fragment of `calcResult()` satisfies a given separation
condition, provided all four candidate last fragments do. -/
theorem sep_calc_last_gen {p : List Char} {H : Frag} (on_ c ac : Nat)
    (h0 : sepOk p (Frag.lit (lc ";")) H = true)
    (h1 : sepOk p bDataLastFrag H = true)
    (h2 : sepOk p (Frag.lit (lc "];")) H = true)
    (h3 : sepOk p jLastFrag H = true) :
    ∀ a ∈ (calcFrags on_ c ac).getLast?, sepOk p a H = true := by
  unfold calcFrags
  exact sep_last_append
    (sep_last_append (sep_last_all rfl h0)
      (getLast?_flatMap_mem (fun i => sep_last_all (ls_bData i) h1) _))
    (getLast?_flatMap_mem (fun i => sep_i_last_gen c ac i h2 h3) _)

/-- Chain condition for one unrolled output row, from per-fma chains and the
two boundary separations. -/
theorem ch_i_gen {p : List Char} (c ac i : Nat)
    (hA : chainOk p [Frag.lit (lc "aData = mm_Asub[localRow + "), Frag.num i,
      Frag.lit (lc "][k / "), Frag.num ac, Frag.lit (lc "];")] = true)
    (hj : ∀ j, chainOk p (jFrags c ac i j) = true)
    (hsep1 : sepOk p jLastFrag jHeadFrag = true)
    (hsep2 : sepOk p (Frag.lit (lc "];")) jHeadFrag = true) :
    chainOk p (iFrags c ac i) = true := by
  unfold iFrags
  exact chainOk_append hA
    (chainOk_flatMap hj (hd_j c ac i)
      (fun j => sep_last_all (ls_j c ac i j) hsep1) _)
    (sep_boundary_flat
      (rfl : [Frag.lit (lc "aData = mm_Asub[localRow + "), Frag.num i,
        Frag.lit (lc "][k / "), Frag.num ac,
        Frag.lit (lc "];")].getLast? = some (Frag.lit (lc "];")))
      (hd_j c ac i) hsep2 _)

/-- Chain condition for `calcResult()`, from per-row chains and the boundary
separations. -/
theorem ch_calc_gen {p : List Char} (on_ c ac : Nat)
    (hA : chainOk p [Frag.lit (lc "var aData: "), Frag.ts ac,
      Frag.lit (lc ";")] = true)
    (hb : ∀ i, chainOk p (bDataFrags i) = true)
    (hi : ∀ i, chainOk p (iFrags c ac i) = true)
    (hsepb : sepOk p bDataLastFrag bDataHeadFrag = true)
    (hsepAb : sepOk p (Frag.lit (lc ";")) bDataHeadFrag = true)
    (hsep0i : sepOk p (Frag.lit (lc ";")) iHeadFrag = true)
    (hsepbi : sepOk p bDataLastFrag iHeadFrag = true)
    (hsepii1 : sepOk p (Frag.lit (lc "];")) iHeadFrag = true)
    (hsepii2 : sepOk p jLastFrag iHeadFrag = true) :
    chainOk p (calcFrags on_ c ac) = true := by
  unfold calcFrags
  refine chainOk_append (chainOk_append hA
      (chainOk_flatMap hb hd_bData
        (fun i => sep_last_all (ls_bData i) hsepb) _)
      (sep_boundary_flat
        (rfl : [Frag.lit (lc "var aData: "), Frag.ts ac,
          Frag.lit (lc ";")].getLast? = some (Frag.lit (lc ";")))
        hd_bData hsepAb _))
    (chainOk_flatMap hi (fun i => rfl)
      (fun i => sep_i_last_gen c ac i hsepii1 hsepii2) _)
    ?_
  intro f hf g hg
  rw [head?_flatMap_mem (fun i =>
    (rfl : (iFrags c ac i).head? = some iHeadFrag)) _ g hg]
  exact sep_last_append
    (sep_last_all
      (rfl : [Frag.lit (lc "var aData: "), Frag.ts ac,
        Frag.lit (lc ";")].getLast? = some (Frag.lit (lc ";")))
      hsep0i)
    (getLast?_flatMap_mem (fun i => sep_last_all (ls_bData i) hsepbi) _) f hf

theorem ch_vw_j (c ac i : Nat) :
    ∀ j, chainOk vwPat (jFrags c ac i j) = true := by
  intro j
  unfold jFrags
  split
  · rfl
  · rfl

theorem ch_wb_j (c ac i : Nat) :
    ∀ j, chainOk wbPat (jFrags c ac i j) = true := by
  intro j
  unfold jFrags
  split
  · rfl
  · rfl

theorem ch_vw_calc (on_ c ac : Nat) :
    chainOk vwPat (calcFrags on_ c ac) = true :=
  ch_calc_gen on_ c ac rfl (fun _ => rfl)
    (fun i => ch_i_gen c ac i rfl (ch_vw_j c ac i) rfl rfl)
    rfl rfl rfl rfl rfl rfl

theorem ch_wb_calc (on_ c ac : Nat) :
    chainOk wbPat (calcFrags on_ c ac) = true :=
  ch_calc_gen on_ c ac rfl (fun _ => rfl)
    (fun i => ch_i_gen c ac i rfl (ch_wb_j c ac i) rfl rfl)
    rfl rfl rfl rfl rfl rfl

theorem ch_vw_compute (ws on_ c ac tM tN tK : Nat) :
    chainOk vwPat (lwsCompute ws on_ c ac tM tN tK) = true := by
  unfold lwsCompute
  refine chainOk_append (chainOk_append rfl (ch_vw_calc on_ c ac)
      (sep_boundary rfl rfl rfl)) rfl ?_
  exact sep_boundary_of_last rfl
    (sep_last_append (sep_last_all rfl rfl)
      (sep_calc_last_gen on_ c ac rfl rfl rfl rfl))

theorem ch_wb_compute (ws on_ c ac tM tN tK : Nat) :
    chainOk wbPat (lwsCompute ws on_ c ac tM tN tK) = true := by
  unfold lwsCompute
  refine chainOk_append (chainOk_append rfl (ch_wb_calc on_ c ac)
      (sep_boundary rfl rfl rfl)) rfl ?_
  exact sep_boundary_of_last rfl
    (sep_last_append (sep_last_all rfl rfl)
      (sep_calc_last_gen on_ c ac rfl rfl rfl rfl))

theorem lwsFrags_decomp (ws on_ c ac tM tN tK : Nat) (isConv : Bool) :
    lwsFrags ws on_ c ac tM tN tK isConv
      = (((lwsLoadsFrags ws on_ c ac tM tN tK isConv ++ [lwsBarrierFrag])
          ++ lwsCompute ws on_ c ac tM tN tK) ++ [lwsBarrierFrag])
          ++ lwsTail ws on_ c tM tN := by
  unfold lwsFrags lwsLoadsFrags
  simp [List.append_assoc]

/-- Separation holds at the tail of `lwsCompute` against any fragment whose
head cannot continue an occurrence. -/
theorem sep_compute_last_gen {p : List Char} {H : Frag}
    (ws on_ c ac tM tN tK : Nat)
    (hpre : sepOk p (Frag.lit (lc ";\n        ")) H = true)
    (h0 : sepOk p (Frag.lit (lc ";")) H = true)
    (h1 : sepOk p bDataLastFrag H = true)
    (h2 : sepOk p (Frag.lit (lc "];")) H = true)
    (h3 : sepOk p jLastFrag H = true)
    (hx : sepOk p (Frag.lit (lc "\n      \x7d\n      \x7d\n      ")) H = true) :
    ∀ a ∈ (lwsCompute ws on_ c ac tM tN tK).getLast?, sepOk p a H = true := by
  unfold lwsCompute
  exact sep_last_append
    (sep_last_append (sep_last_all rfl hpre)
      (sep_calc_last_gen on_ c ac h0 h1 h2 h3))
    (sep_last_all rfl hx)

theorem ch_vw_rest (ws on_ c ac tM tN tK : Nat) (isConv : Bool) :
    chainOk vwPat (lwsRestFrags ws on_ c ac tM tN tK isConv) = true := by
  unfold lwsRestFrags
  refine chainOk_append (chainOk_append (chainOk_append rfl
      (ch_vw_compute ws on_ c ac tM tN tK) (sep_boundary rfl rfl rfl)) rfl ?_)
    rfl (sep_boundary (List.getLast?_concat _) rfl rfl)
  refine sep_boundary_of_last rfl ?_
  exact sep_last_append (sep_last_all (List.getLast?_concat _) rfl)
    (sep_compute_last_gen ws on_ c ac tM tN tK rfl rfl rfl rfl rfl rfl)

theorem ch_wb_rest (ws on_ c ac tM tN tK : Nat) (isConv : Bool) :
    chainOk wbPat (lwsRestFrags ws on_ c ac tM tN tK isConv) = true := by
  unfold lwsRestFrags
  refine chainOk_append (chainOk_append (chainOk_append rfl
      (ch_wb_compute ws on_ c ac tM tN tK) (sep_boundary rfl rfl rfl)) rfl ?_)
    rfl (sep_boundary (List.getLast?_concat _) rfl rfl)
  refine sep_boundary_of_last rfl ?_
  exact sep_last_append (sep_last_all (List.getLast?_concat _) rfl)
    (sep_compute_last_gen ws on_ c ac tM tN tK rfl rfl rfl rfl rfl rfl)

theorem ch_vw_full (ws on_ c ac tM tN tK : Nat) (isConv : Bool) :
    chainOk vwPat (lwsFrags ws on_ c ac tM tN tK isConv) = true := by
  rw [lwsFrags_decomp]
  refine chainOk_append (chainOk_append (chainOk_append rfl
      (ch_vw_compute ws on_ c ac tM tN tK) (sep_boundary rfl rfl rfl)) rfl ?_)
    rfl (sep_boundary (List.getLast?_concat _) rfl rfl)
  refine sep_boundary_of_last rfl ?_
  exact sep_last_append (sep_last_all (List.getLast?_concat _) rfl)
    (sep_compute_last_gen ws on_ c ac tM tN tK rfl rfl rfl rfl rfl rfl)

theorem ch_wb_full (ws on_ c ac tM tN tK : Nat) (isConv : Bool) :
    chainOk wbPat (lwsFrags ws on_ c ac tM tN tK isConv) = true := by
  rw [lwsFrags_decomp]
  refine chainOk_append (chainOk_append (chainOk_append rfl
      (ch_wb_compute ws on_ c ac tM tN tK) (sep_boundary rfl rfl rfl)) rfl ?_)
    rfl (sep_boundary (List.getLast?_concat _) rfl rfl)
  refine sep_boundary_of_last rfl ?_
  exact sep_last_append (sep_last_all (List.getLast?_concat _) rfl)
    (sep_compute_last_gen ws on_ c ac tM tN tK rfl rfl rfl rfl rfl rfl)

theorem neb_j (c ac i : Nat) :
    ∀ j, (jFrags c ac i j).all Frag.neB = true := by
  intro j
  unfold jFrags
  split
  · rfl
  · rfl

theorem neb_i (c ac : Nat) :
    ∀ i, (iFrags c ac i).all Frag.neB = true := by
  intro i
  unfold iFrags
  exact frags_all_neB_append rfl (all_neB_flatMap (neb_j c ac i) _)

theorem neb_calc (on_ c ac : Nat) :
    (calcFrags on_ c ac).all Frag.neB = true := by
  unfold calcFrags
  exact frags_all_neB_append
    (frags_all_neB_append rfl (all_neB_flatMap
      (fun i => (rfl : (bDataFrags i).all Frag.neB = true)) _))
    (all_neB_flatMap (neb_i c ac) _)

theorem neb_compute (ws on_ c ac tM tN tK : Nat) :
    (lwsCompute ws on_ c ac tM tN tK).all Frag.neB = true := by
  unfold lwsCompute
  exact frags_all_neB_append
    (frags_all_neB_append rfl (neb_calc on_ c ac)) rfl

theorem neb_rest (ws on_ c ac tM tN tK : Nat) (isConv : Bool) :
    (lwsRestFrags ws on_ c ac tM tN tK isConv).all Frag.neB = true := by
  unfold lwsRestFrags
  exact frags_all_neB_append (frags_all_neB_append
    (frags_all_neB_append rfl (neb_compute ws on_ c ac tM tN tK)) rfl) rfl

theorem neb_full (ws on_ c ac tM tN tK : Nat) (isConv : Bool) :
    (lwsFrags ws on_ c ac tM tN tK isConv).all Frag.neB = true := by
  rw [lwsFrags_decomp]
  exact frags_all_neB_append (frags_all_neB_append
    (frags_all_neB_append rfl (neb_compute ws on_ c ac tM tN tK)) rfl) rfl

theorem sum_vw_j (c ac i : Nat) :
    ∀ j, sumOcc vwPat (jFrags c ac i j) = 0 := by
  intro j
  unfold jFrags
  split
  · simp [sumOcc, occFrag]
    all_goals decide
  · simp [sumOcc, occFrag]
    all_goals decide

theorem sum_wb_j (c ac i : Nat) :
    ∀ j, sumOcc wbPat (jFrags c ac i j) = 0 := by
  intro j
  unfold jFrags
  split
  · simp [sumOcc, occFrag]
    all_goals decide
  · simp [sumOcc, occFrag]
    all_goals decide

theorem sum_vw_bData : ∀ i, sumOcc vwPat (bDataFrags i) = 0 := by
  intro i
  simp [sumOcc, bDataFrags, occFrag]
  all_goals decide

theorem sum_wb_bData : ∀ i, sumOcc wbPat (bDataFrags i) = 0 := by
  intro i
  simp [sumOcc, bDataFrags, occFrag]
  all_goals decide

theorem sum_vw_i (c ac : Nat) : ∀ i, sumOcc vwPat (iFrags c ac i) = 0 := by
  intro i
  unfold iFrags
  rw [sumOcc_append, sumOcc_flatMap_zero (sum_vw_j c ac i)]
  simp [sumOcc, occFrag]
  all_goals decide

theorem sum_wb_i (c ac : Nat) : ∀ i, sumOcc wbPat (iFrags c ac i) = 0 := by
  intro i
  unfold iFrags
  rw [sumOcc_append, sumOcc_flatMap_zero (sum_wb_j c ac i)]
  simp [sumOcc, occFrag]
  all_goals decide

theorem sum_vw_calc (on_ c ac : Nat) : sumOcc vwPat (calcFrags on_ c ac) = 0 := by
  unfold calcFrags
  rw [sumOcc_append, sumOcc_append, sumOcc_flatMap_zero sum_vw_bData,
    sumOcc_flatMap_zero (sum_vw_i c ac)]
  simp [sumOcc, occFrag]
  all_goals decide

theorem sum_wb_calc (on_ c ac : Nat) : sumOcc wbPat (calcFrags on_ c ac) = 0 := by
  unfold calcFrags
  rw [sumOcc_append, sumOcc_append, sumOcc_flatMap_zero sum_wb_bData,
    sumOcc_flatMap_zero (sum_wb_i c ac)]
  simp [sumOcc, occFrag]
  all_goals decide

theorem sum_vw_compute (ws on_ c ac tM tN tK : Nat) :
    sumOcc vwPat (lwsCompute ws on_ c ac tM tN tK) = 0 := by
  unfold lwsCompute
  rw [sumOcc_append, sumOcc_append, sum_vw_calc]
  simp [sumOcc, lwsComputePre, occFrag]
  all_goals decide

theorem sum_wb_compute (ws on_ c ac tM tN tK : Nat) :
    sumOcc wbPat (lwsCompute ws on_ c ac tM tN tK) = 0 := by
  unfold lwsCompute
  rw [sumOcc_append, sumOcc_append, sum_wb_calc]
  simp [sumOcc, lwsComputePre, occFrag]
  all_goals decide

theorem sum_vw_loads (ws on_ c ac tM tN tK : Nat) (isConv : Bool) :
    sumOcc vwPat (lwsLoadsFrags ws on_ c ac tM tN tK isConv) = 2 := by
  unfold lwsLoadsFrags lwsHead
  simp [sumOcc, lwsDeclA, lwsDeclB, lwsHeadPre, lwsBatch, lwsHeadPost,
    occFrag]
  all_goals decide

theorem sum_wb_loads (ws on_ c ac tM tN tK : Nat) (isConv : Bool) :
    sumOcc wbPat (lwsLoadsFrags ws on_ c ac tM tN tK isConv) = 0 := by
  unfold lwsLoadsFrags lwsHead
  simp [sumOcc, lwsDeclA, lwsDeclB, lwsHeadPre, lwsBatch, lwsHeadPost,
    occFrag]
  all_goals decide

theorem sum_vw_head (ws on_ c ac tM tN tK : Nat) (isConv : Bool) :
    sumOcc vwPat (lwsHead ws on_ c ac tM tN tK isConv) = 0 := by
  unfold lwsHead
  simp [sumOcc, lwsHeadPre, lwsBatch, lwsHeadPost, occFrag]
  all_goals decide

theorem sum_wb_head (ws on_ c ac tM tN tK : Nat) (isConv : Bool) :
    sumOcc wbPat (lwsHead ws on_ c ac tM tN tK isConv) = 0 := by
  unfold lwsHead
  simp [sumOcc, lwsHeadPre, lwsBatch, lwsHeadPost, occFrag]
  all_goals decide

theorem sum_vw_tail (ws on_ c tM tN : Nat) :
    sumOcc vwPat (lwsTail ws on_ c tM tN) = 0 := by
  simp [sumOcc, lwsTail, occFrag]
  all_goals decide

theorem sum_wb_tail (ws on_ c tM tN : Nat) :
    sumOcc wbPat (lwsTail ws on_ c tM tN) = 0 := by
  simp [sumOcc, lwsTail, occFrag]
  all_goals decide

theorem sum_vw_rest (ws on_ c ac tM tN tK : Nat) (isConv : Bool) :
    sumOcc vwPat (lwsRestFrags ws on_ c ac tM tN tK isConv) = 0 := by
  unfold lwsRestFrags
  rw [sumOcc_append, sumOcc_append, sumOcc_append, sumOcc_append,
    sum_vw_head, sum_vw_compute, sum_vw_tail]
  decide

theorem sum_wb_full (ws on_ c ac tM tN tK : Nat) (isConv : Bool) :
    sumOcc wbPat (lwsFrags ws on_ c ac tM tN tK isConv) = 2 := by
  rw [lwsFrags_decomp]
  rw [sumOcc_append, sumOcc_append, sumOcc_append, sumOcc_append,
    sum_wb_loads, sum_wb_compute, sum_wb_tail]
  decide

theorem sum_vw_full (ws on_ c ac tM tN tK : Nat) (isConv : Bool) :
    sumOcc vwPat (lwsFrags ws on_ c ac tM tN tK isConv) = 2 := by
  rw [lwsFrags_decomp]
  rw [sumOcc_append, sumOcc_append, sumOcc_append, sumOcc_append,
    sum_vw_loads, sum_vw_compute, sum_vw_tail]
  decide

/-- C8: for every tile configuration, the synthesized kernel text contains
exactly two `var<workgroup>` shared-buffer declarations — `mm_Asub`, sized
`tileM` by `tileK / aComponents` with `aComponents`-wide vectors, and
`mm_Bsub`, sized `tileK` by `tileN / components` with `components`-wide
vectors, both emitted before the rest of the kernel — and exactly two
`workgroupBarrier()` calls: one directly after the cooperative tile loads
(`mm_readA` / `mm_readB`) and one directly after the per-thread accumulation
phase, with the write-back (`mm_write`) epilogue following the second
barrier. -/
theorem c8_shared_decls_and_barriers (ws on_ c ac tM tN tK : Nat)
    (isConv : Bool) :
    (occ vwPat (makeMatMulLWSSource ws on_ c ac tM tN tK isConv) = 2
     ∧ ∃ rest, makeMatMulLWSSource ws on_ c ac tM tN tK isConv
         = (lc "\n  var<workgroup> mm_Asub: array<array<" ++ typeSnippet ac
            ++ lc ", " ++ natChars (tK / ac) ++ lc ">, " ++ natChars tM
            ++ lc ">;")
           ++ (lc "\n  var<workgroup> mm_Bsub: array<array<" ++ typeSnippet c
            ++ lc ", " ++ natChars (tN / c) ++ lc ">, " ++ natChars tK
            ++ lc ">;")
           ++ rest
         ∧ occ vwPat rest = 0)
    ∧ (occ wbPat (makeMatMulLWSSource ws on_ c ac tM tN tK isConv) = 2
       ∧ ∃ loads compute epilogue,
           makeMatMulLWSSource ws on_ c ac tM tN tK isConv
             = loads ++ lc "workgroupBarrier();" ++ compute
               ++ lc "workgroupBarrier();" ++ epilogue
           ∧ occ wbPat loads = 0 ∧ occ wbPat compute = 0
           ∧ occ wbPat epilogue = 0
           ∧ lc "mm_Asub[inputRow][inputCol] = mm_readA(" <:+: loads
           ∧ lc "mm_Bsub[inputRow][inputCol] = mm_readB(" <:+: loads
           ∧ lc "// Compute values for a single thread." <:+: compute
           ∧ lc "mm_write(" <:+: epilogue) := by
  refine ⟨⟨?_, ?_⟩, ?_, ?_⟩
  · rw [makeMatMulLWSSource,
      occ_renderFrags_sum patOk_vw (neb_full ws on_ c ac tM tN tK isConv)
        (ch_vw_full ws on_ c ac tM tN tK isConv),
      sum_vw_full]
  · refine ⟨renderFrags (lwsRestFrags ws on_ c ac tM tN tK isConv), ?_, ?_⟩
    · rw [← renderFrags_lwsDeclA ac tM tK, ← renderFrags_lwsDeclB c tN tK,
        ← renderFrags_append, ← renderFrags_append, makeMatMulLWSSource]
      refine congrArg renderFrags ?_
      unfold lwsFrags lwsRestFrags
      simp [List.append_assoc]
    · rw [occ_renderFrags_sum patOk_vw (neb_rest ws on_ c ac tM tN tK isConv)
          (ch_vw_rest ws on_ c ac tM tN tK isConv),
        sum_vw_rest]
  · rw [makeMatMulLWSSource,
      occ_renderFrags_sum patOk_wb (neb_full ws on_ c ac tM tN tK isConv)
        (ch_wb_full ws on_ c ac tM tN tK isConv),
      sum_wb_full]
  · refine ⟨renderFrags (lwsLoadsFrags ws on_ c ac tM tN tK isConv),
      renderFrags (lwsCompute ws on_ c ac tM tN tK),
      renderFrags (lwsTail ws on_ c tM tN), ?_, ?_, ?_, ?_, ?_, ?_, ?_, ?_⟩
    · rw [makeMatMulLWSSource, lwsFrags_decomp]
      simp only [renderFrags_append, renderFrags_barrier, List.append_assoc]
    · rw [occ_renderFrags_sum patOk_wb ?hne ?hch, sum_wb_loads]
      case hne =>
        unfold lwsLoadsFrags
        exact frags_all_neB_append rfl rfl
      case hch => exact rfl
    · rw [occ_renderFrags_sum patOk_wb (neb_compute ws on_ c ac tM tN tK)
          (ch_wb_compute ws on_ c ac tM tN tK),
        sum_wb_compute]
    · rw [occ_renderFrags_sum patOk_wb
          (rfl : (lwsTail ws on_ c tM tN).all Frag.neB = true)
          (rfl : chainOk wbPat (lwsTail ws on_ c tM tN) = true),
        sum_wb_tail]
    · have hmem : Frag.lit (lc ";\n\n          mm_Asub[inputRow][inputCol] = mm_readA(batchA, i32(tileRowStart + inputRow), i32(kStart + inputCol * ")
          ∈ lwsLoadsFrags ws on_ c ac tM tN tK isConv := by
        unfold lwsLoadsFrags lwsHead lwsHeadPost
        simp
      exact infix_renderFrags_of_mem hmem (by decide)
    · have hmem : Frag.lit (lc ";\n          mm_Bsub[inputRow][inputCol] = mm_readB(batchB, i32(kStart + inputRow), i32(tileColStart + inputCol * ")
          ∈ lwsLoadsFrags ws on_ c ac tM tN tK isConv := by
        unfold lwsLoadsFrags lwsHead lwsHeadPost
        simp
      exact infix_renderFrags_of_mem hmem (by decide)
    · have hmem : Frag.lit (lc "\n\n      // Compute values for a single thread.\n      for (var k = 0; k < ")
          ∈ lwsCompute ws on_ c ac tM tN tK := by
        unfold lwsCompute lwsComputePre
        simp
      exact infix_renderFrags_of_mem hmem (by decide)
    · have hmem : Frag.lit (lc "u; i++) \x7b\n        mm_write(i32(batch), i32(globalRow + i), i32(globalCol), values[i]);\n      \x7d\n    \x7d\n  \x7d\n  ")
          ∈ lwsTail ws on_ c tM tN := by
        unfold lwsTail
        simp
      exact infix_renderFrags_of_mem hmem (by decide)
